import Mathlib

set_option maxHeartbeats 1000000
set_option maxRecDepth 4000
set_option exponentiation.threshold 1100

/-!
Shallow embedding of the cerebra-cmdb-marketplace validation scripts
(`scripts/_lib.mjs`, `scripts/validate-pack.mjs`, `scripts/validate-catalog.mjs`).

JavaScript strings are modelled as Lean `String` (identifiers and messages in
this repository are ASCII, where Lean code points and JS UTF-16 code units
agree).  JS numbers appearing in the validators are JSON numbers; they are
modelled as exact rationals (`Rat`).  `Number(...)` on the digit strings of
semver groups and prerelease identifiers is modelled as a float64: the exact
value rounded to 53 significand bits (round-to-nearest, ties-to-even), with
`none` standing for the `Infinity` overflow at `2^1024`
(see `jsNumberOfDigits`).
Filesystem access (`node:fs`) and the environment-dependent platform calls
(`String.prototype.localeCompare`, `Date` parsing) are collaborator inputs and
are modelled as explicit structures (`FS`, `Env`) passed to the validators.
-/

/-! ## JS string primitives -/

/-- The ECMA-262 `WhiteSpace` and `LineTerminator` characters trimmed by
`String.prototype.trim` (Zs category enumerated). -/
def jsWhitespace (c : Char) : Bool :=
  c = ' ' ∨ c = '\t' ∨ c = '\n' ∨ c = '\u000B' ∨ c = '\u000C' ∨ c = '\u000D' ∨
  c = ' ' ∨ c = ' ' ∨ (' ' ≤ c ∧ c ≤ ' ') ∨
  c = ' ' ∨ c = ' ' ∨ c = ' ' ∨ c = ' ' ∨ c = '　' ∨
  c = '﻿'

/-- `String.prototype.trim`. -/
def jsTrim (s : String) : String :=
  ⟨((s.data.dropWhile jsWhitespace).reverse.dropWhile jsWhitespace).reverse⟩

/-- `String.prototype.toLowerCase` (ASCII range; the validators lowercase hex
digests and pack ids, which are ASCII). -/
def jsToLower (s : String) : String :=
  ⟨s.data.map Char.toLower⟩

/-- Three-way comparison of char lists by code point; this is the order JS
`<`/`>` induce on strings (by UTF-16 code unit, identical on these ASCII
inputs).  Result is -1, 0 or 1. -/
def charsCmp : List Char → List Char → Int
  | [], [] => 0
  | [], _ :: _ => -1
  | _ :: _, [] => 1
  | a :: as, b :: bs => if a = b then charsCmp as bs else if a < b then -1 else 1

/-- JS `<` on strings: lexicographic comparison by code unit. -/
def jsStrLt : List Char → List Char → Bool
  | [], [] => false
  | [], _ :: _ => true
  | _ :: _, [] => false
  | a :: as, b :: bs => if a = b then jsStrLt as bs else a < b

/-- Code-unit string comparison, a concrete stand-in for the platform collator
(`localeCompare` falls back to code-unit order on ICU-less builds). -/
def cuCmp (a b : String) : Int := charsCmp a.data b.data

/-- `s` starts with `p` (used to classify issue messages by their fixed
prefixes). -/
def strStarts (p s : String) : Bool := p.data.isPrefixOf s.data

/-- `String.prototype.endsWith`. -/
def strEnds (p s : String) : Bool := p.data.isSuffixOf s.data

/-- Drop the first `n` characters of a string. -/
def strDrop (s : String) (n : Nat) : String := ⟨s.data.drop n⟩

/-- Split a char list at every occurrence of `sep` (semantics of JS
`String.prototype.split` with a single-char separator: empty pieces are
kept, and the empty string splits to `[""]`). -/
def splitChars (sep : Char) : List Char → List (List Char)
  | [] => [[]]
  | c :: rest =>
    if c = sep then [] :: splitChars sep rest
    else
      match splitChars sep rest with
      | h :: t => (c :: h) :: t
      | [] => [[c]]

/-- Join strings with a separator (`Array.prototype.join`). -/
def joinSep (sep : String) : List String → String
  | [] => ""
  | [s] => s
  | s :: rest => s ++ sep ++ joinSep sep rest

/-! ## Semver engine (`scripts/_lib.mjs` lines 87-154) -/

/-- `normalizeSemver`: trim, then strip one leading `v`/`V`; empty-string
sentinel for empty input. -/
def normalizeSemver (version : String) : String :=
  let v := jsTrim version
  if v = "" then ""
  else if strStarts "v" v ∨ strStarts "V" v then strDrop v 1
  else v

/-- A prerelease/build identifier character: `[0-9A-Za-z-]`. -/
def semverIdChar (c : Char) : Bool := c.isAlphanum ∨ c = '-'

/-- Exact mathematical value of a digit string — the ECMA "MV" that JS
`Number` then rounds to a float64 (see `jsNumberOfDigits`). -/
def digitsVal (l : List Char) : Nat :=
  l.foldl (fun acc c => 10 * acc + (c.toNat - '0'.toNat)) 0

/-- Fuel-driven binary length: `bitlenGo fuel n` is the number of binary
digits of `n` whenever `fuel` bounds it (callers pass a proven-ample fuel,
so the recursion is total and kernel-reducible). -/
def bitlenGo : Nat → Nat → Nat
  | 0, _ => 0
  | fuel + 1, n => if n = 0 then 0 else bitlenGo fuel (n / 2) + 1

/-- Round a natural number to the nearest IEEE-754 binary64 value
(round-to-nearest, ties-to-even): exact below `2^53`; otherwise the integer
is cut after 53 significand bits and the remainder decides between the two
neighbouring representable values, a tie going to the even significand.
Results of magnitude `2^1024` or more overflow to `Infinity`, modelled as
`none`.  `fuel` must bound the bit length of `n`. -/
def roundDouble (fuel : Nat) (n : Nat) : Option Nat :=
  if n < 2 ^ 53 then some n
  else
    let k := bitlenGo fuel n - 53
    let q := n / 2 ^ k
    let r := n % 2 ^ k
    let half := 2 ^ (k - 1)
    let rounded :=
      (if r < half then q
       else if half < r then q + 1
       else if q % 2 = 0 then q else q + 1) * 2 ^ k
    if rounded < 2 ^ 1024 then some rounded else none

/-- JS `Number` on a digit string: the exact value `digitsVal` rounded to
float64 (this correctly-rounded behaviour is what V8 implements; the
latitude ECMA grants beyond 20 significant digits never moves a value
across the finite/`Infinity` boundary).  Values of `2^1024` or more after
rounding overflow to `Infinity` (`none`) — e.g. every numeric identifier of
309 or more nines.  The fuel `4 * l.length + 8` bounds the bit length,
since `digitsVal l < 10 ^ l.length ≤ 2 ^ (4 * l.length)`. -/
def jsNumberOfDigits (l : List Char) : Option Nat :=
  roundDouble (4 * l.length + 8) (digitsVal l)

/-- Parse one `(0|[1-9]\d*)` group greedily; returns the captured digit
characters and the rest. -/
def parseNumGroup : List Char → Option (List Char × List Char)
  | [] => none
  | c :: rest =>
    if c = '0' then some ([c], rest)
    else if c.isDigit then
      some (c :: rest.takeWhile Char.isDigit, rest.dropWhile Char.isDigit)
    else none

/-- A dot-separated identifier section `[0-9A-Za-z-]+(\.[0-9A-Za-z-]+)*`:
every dot-separated piece is a non-empty run of identifier characters. -/
def validIdSection (parts : List (List Char)) : Bool :=
  parts.all (fun p => p ≠ [] ∧ p.all semverIdChar)

/-- The parsed form built by `parseSemver`: major/minor/patch as the JS
`Number` images of the captured digit groups (float64 values, `none` being
`Infinity`), and the prerelease identifiers (build metadata is captured by
the regex but unused). -/
structure Semver where
  major : Option Nat
  minor : Option Nat
  patch : Option Nat
  pre : List String
deriving DecidableEq, Repr

/-- Match of `SEMVER_RE` against a (already normalized) version string.
The regex alternatives are first-character disjoint and every group is
followed by a character outside its class, so greedy scanning is exact. -/
def semverScan (l : List Char) : Option Semver :=
  match parseNumGroup l with
  | none => none
  | some (maj, r1) =>
    match r1 with
    | '.' :: r2 =>
      match parseNumGroup r2 with
      | none => none
      | some (min, r3) =>
        match r3 with
        | '.' :: r4 =>
          match parseNumGroup r4 with
          | none => none
          | some (pat, r5) =>
            let mj := jsNumberOfDigits maj
            let mn := jsNumberOfDigits min
            let pt := jsNumberOfDigits pat
            match r5 with
            | [] => some ⟨mj, mn, pt, []⟩
            | '-' :: r6 =>
              let parts := splitChars '.' (r6.takeWhile (· ≠ '+'))
              if validIdSection parts then
                match r6.dropWhile (· ≠ '+') with
                | [] => some ⟨mj, mn, pt, parts.map (⟨·⟩)⟩
                | '+' :: r7 =>
                  if validIdSection (splitChars '.' r7) then
                    some ⟨mj, mn, pt, parts.map (⟨·⟩)⟩
                  else none
                | _ => none
              else none
            | '+' :: r6 =>
              if validIdSection (splitChars '.' r6) then
                some ⟨mj, mn, pt, []⟩
              else none
            | _ => none
        | _ => none
    | _ => none

/-- `parseSemver`: normalize then match `SEMVER_RE`, building `{major, minor,
patch, pre}`. -/
def parseSemver (version : String) : Option Semver :=
  semverScan (normalizeSemver version).data

/-- `isSemver`: `SEMVER_RE.test(normalizeSemver v)`. -/
def isSemver (version : String) : Bool :=
  (parseSemver version).isSome

/-- `^[0-9]+$` — the numeric-identifier test in `compareIdentifiers`. -/
def isNumericId (l : List Char) : Bool := l ≠ [] ∧ l.all Char.isDigit

/-- An identifier whose JS `Number` image is finite: every non-numeric
identifier passes; a numeric one must stay below the float64 overflow
threshold. -/
def idFinite (l : List Char) : Bool :=
  !(isNumericId l) || (jsNumberOfDigits l).isSome

def semverIdFinite (s : String) : Bool := idFinite s.data

/-- All prerelease identifiers of a parsed semver have finite JS `Number`
images. -/
def semverPreFinite (p : Semver) : Bool := p.pre.all semverIdFinite

/-- A version string that parses as semver and whose numeric prerelease
identifiers all stay below the float64 overflow threshold (about
`1.8e308`). -/
def semverNumFinite (v : String) : Bool :=
  match parseSemver v with
  | some p => semverPreFinite p
  | none => false

/-- Sign of an integer difference, as `diff === 0 ? 0 : diff > 0 ? 1 : -1`. -/
def intSign (d : Int) : Int := if d = 0 then 0 else if d > 0 then 1 else -1

/-- `compareIdentifiers` on the character lists of the two identifiers.
Numeric identifiers compare as `Number(a) - Number(b)` in float64: with two
finite values the sign of the difference of the rounded values decides
(float subtraction of integer-valued doubles is zero exactly on equality
and keeps the sign of the exact difference); a `finite - Infinity`
difference is `-Infinity` (→ -1), `Infinity - finite` is `+Infinity`
(→ 1), and `Infinity - Infinity` is `NaN`, whose `=== 0` and `> 0` tests
are both false, so the ternary yields -1 — even for two equal overflowing
identifiers.  A numeric identifier sorts below a non-numeric one, and
non-numeric identifiers compare as JS strings
(`a === b ? 0 : a > b ? 1 : -1`, i.e. code-unit order). -/
def cmpIdChars (a b : List Char) : Int :=
  if isNumericId a ∧ isNumericId b then
    match jsNumberOfDigits a, jsNumberOfDigits b with
    | some x, some y => intSign ((x : Int) - y)
    | some _, none => -1
    | none, some _ => 1
    | none, none => -1
  else if isNumericId a ∧ ¬ isNumericId b then -1
  else if ¬ isNumericId a ∧ isNumericId b then 1
  else charsCmp a b

/-- `compareIdentifiers`. -/
def compareIdentifiers (a b : String) : Int := cmpIdChars a.data b.data

/-- The position-by-position prerelease loop of `compareSemver` (lines
144-153): `undefined` on the shorter side yields -1/1. -/
def cmpPre : List String → List String → Int
  | [], [] => 0
  | [], _ :: _ => -1
  | _ :: _, [] => 1
  | a :: as, b :: bs =>
    let c := compareIdentifiers a b
    if c ≠ 0 then c else cmpPre as bs

/-- Prerelease comparison including the no-prerelease rule of lines 139-142:
an empty prerelease has the higher precedence. -/
def cmpPreTop : List String → List String → Int
  | [], [] => 0
  | [], _ :: _ => 1
  | _ :: _, [] => -1
  | a :: as, b :: bs => cmpPre (a :: as) (b :: bs)

/-- JS `>` on two float64 `Number` images (`none` = `Infinity`):
`Infinity > Infinity` is false, `Infinity` exceeds every finite value, and
finite values compare by their rounded integer value. -/
def fltGt : Option Nat → Option Nat → Bool
  | none, none => false
  | none, some _ => true
  | some _, none => false
  | some x, some y => x > y

/-- Three-way comparison of two float64 `Number` images in the shape of the
source's `a !== b ? (a > b ? 1 : -1) : fall through` steps (`!==` on
`Infinity` vs `Infinity` is false, so two overflowed components compare
equal — no `NaN` arises here, unlike the subtraction in
`compareIdentifiers`). -/
def fltCmpI (a b : Option Nat) : Int := if a ≠ b then (if fltGt a b then 1 else -1) else 0

/-- Lexicographic composition of three-way comparators: the first comparator
decides unless it ties. -/
def lexC (f g : α → α → Int) (x y : α) : Int :=
  if f x y ≠ 0 then f x y else g x y

/-- The comparison of two parsed semvers (body of `compareSemver`); the
major/minor/patch fields are float64 `Number` images compared with JS `!==`
and `>`. -/
def cmpParsed (pa pb : Semver) : Int :=
  if pa.major ≠ pb.major then (if fltGt pa.major pb.major then 1 else -1)
  else if pa.minor ≠ pb.minor then (if fltGt pa.minor pb.minor then 1 else -1)
  else if pa.patch ≠ pb.patch then (if fltGt pa.patch pb.patch then 1 else -1)
  else cmpPreTop pa.pre pb.pre

/-- `compareSemver`: `null` (modelled as `none`) when either side fails to
parse. -/
def compareSemver (a b : String) : Option Int :=
  match parseSemver a, parseSemver b with
  | some pa, some pb => some (cmpParsed pa pb)
  | _, _ => none

/-! ## JSON documents

JSON values as handed to the validators by `readJson` (`JSON.parse`).  Object
fields are an association list; property access takes the last binding, as
`JSON.parse` keeps the last of duplicate keys. -/

inductive Json where
  | null
  | bool (b : Bool)
  | num (q : Rat)
  | str (s : String)
  | arr (items : List Json)
  | obj (fields : List (String × Json))

/-- Property access `j.k`: `undefined` (`none`) unless `j` is an object with
the field. -/
def Json.get? : Json → String → Option Json
  | .obj fields, k => (fields.reverse.find? (fun p => p.1 == k)).map (·.2)
  | _, _ => none

/-- JS truthiness of a JSON value (`NaN` cannot arise from `JSON.parse`). -/
def jsTruthy : Json → Bool
  | .null => false
  | .bool b => b
  | .num q => q ≠ 0
  | .str s => s ≠ ""
  | .arr _ => true
  | .obj _ => true

/-- `x && typeof x === 'object' && !Array.isArray(x)` — a plain object. -/
def jsPlainObject : Json → Bool
  | .obj _ => true
  | _ => false

/-- `x && typeof x === 'object'` — truthy and of object type (arrays pass,
`null` is falsy). -/
def jsObjectLike : Json → Bool
  | .obj _ => true
  | .arr _ => true
  | _ => false

/-- `Number.isInteger(x) && x > 0` on an optional JSON value (the check
`!Number.isInteger(v) || v <= 0` is the negation of this). -/
def jsPosInt : Option Json → Bool
  | some (.num q) => q.den = 1 ∧ 0 < q
  | _ => false

/-- `Array.isArray` on an optional JSON value. -/
def isArrOpt : Option Json → Bool
  | some (.arr _) => true
  | _ => false

/-- `typeof v === 'string' ? v.trim() : ''` on a field of `j`. -/
def strField (j : Json) (k : String) : String :=
  match j.get? k with
  | some (.str s) => jsTrim s
  | _ => ""

/-! ## Identifier guards (`scripts/_lib.mjs`) -/

/-- `normalizePackId`: trim + lowercase (empty for non-strings, which cannot
arise here since callers pass strings). -/
def normalizePackId (packId : String) : String := jsToLower (jsTrim packId)

/-- A lowercase-alphanumeric-or-hyphen character `[a-z0-9-]`. -/
def slugChar (c : Char) : Bool := ('a' ≤ c ∧ c ≤ 'z') ∨ c.isDigit ∨ c = '-'

/-- `isValidPublisherOrSlug`: non-empty after trim, at most 64 chars,
`^[a-z0-9][a-z0-9-]*$`. -/
def isValidPublisherOrSlug (value : String) : Bool :=
  let v := (jsTrim value).data
  match v with
  | [] => false
  | c :: rest =>
    v.length ≤ 64 ∧ (('a' ≤ c ∧ c ≤ 'z') ∨ c.isDigit) ∧ rest.all slugChar

/-- A hexadecimal digit `[a-fA-F0-9]`. -/
def hexChar (c : Char) : Bool :=
  c.isDigit ∨ ('a' ≤ c ∧ c ≤ 'f') ∨ ('A' ≤ c ∧ c ≤ 'F')

/-- `/^[a-fA-F0-9]{64}$/` — the declared-digest format. -/
def isHex64 (s : String) : Bool := s.data.length = 64 ∧ s.data.all hexChar

/-- One UUID group: exactly `n` hex digits. -/
def hexGroup (n : Nat) (l : List Char) : Bool := l.length = n ∧ l.all hexChar

/-- `isUuid`: canonical UUID shape on the trimmed value, version nibble
`[1-5]`, variant nibble `[89ab]`, case-insensitive. -/
def isUuid (value : String) : Bool :=
  match splitChars '-' (jsTrim value).data with
  | [g1, g2, v3 :: r3, v4 :: r4, g5] =>
    hexGroup 8 g1 && hexGroup 4 g2 && hexGroup 4 (v4 :: r4) && hexGroup 12 g5 &&
    ('1' ≤ v3 && v3 ≤ '5') && hexGroup 3 r3 &&
    (v4 = '8' || v4 = '9' || v4 = 'a' || v4 = 'b' || v4 = 'A' || v4 = 'B')
  | _ => false

/-- `/^#[0-9a-f]{6}$/i` — `COLOR_REGEX` of `validate-pack.mjs`. -/
def isColorHex (s : String) : Bool :=
  match s.data with
  | '#' :: rest => rest.length = 6 ∧ rest.all (fun c =>
      c.isDigit ∨ ('a' ≤ c ∧ c ≤ 'f') ∨ ('A' ≤ c ∧ c ≤ 'F'))
  | _ => false

/-! ## POSIX paths (`node:path`, used by the validators on Linux) -/

/-- Segment resolution of `path.posix.normalize`: drop empty and `.`
segments, resolve `..` against the accumulated stack, keeping leading `..`
only for relative paths (`allowAboveRoot`). -/
def normSegs (allowAboveRoot : Bool) : List (List Char) → List (List Char) → List (List Char)
  | [], acc => acc.reverse
  | s :: rest, acc =>
    if s = [] ∨ s = ['.'] then normSegs allowAboveRoot rest acc
    else if s = ['.', '.'] then
      match acc with
      | t :: acc2 =>
        if t = ['.', '.'] then normSegs allowAboveRoot rest (s :: t :: acc2)
        else normSegs allowAboveRoot rest acc2
      | [] =>
        if allowAboveRoot then normSegs allowAboveRoot rest [s]
        else normSegs allowAboveRoot rest []
    else normSegs allowAboveRoot rest (s :: acc)

/-- `path.posix.normalize`. -/
def posixNormalize (p : String) : String :=
  if p = "" then "."
  else
    let isAbs := strStarts "/" p
    let trailing := strEnds "/" p
    let body := joinSep "/" ((normSegs (¬ isAbs) (splitChars '/' p.data) []).map (⟨·⟩))
    if body = "" then
      if isAbs then "/" else if trailing then "./" else "."
    else
      let body2 := if trailing then body ++ "/" else body
      if isAbs then "/" ++ body2 else body2

/-- `path.join` (POSIX): join the non-empty parts with `/` and normalize;
`.` when everything is empty. -/
def pathJoin (a b : String) : String :=
  let joined := if a = "" then b else if b = "" then a else a ++ "/" ++ b
  if joined = "" then "." else posixNormalize joined

/-- `path.posix.basename` without an extension argument: the last non-empty
segment, ignoring trailing slashes. -/
def posixBasename (p : String) : String :=
  let t := p.data.reverse.dropWhile (· = '/')
  ⟨(t.takeWhile (· ≠ '/')).reverse⟩

/-- `path.posix.basename(p, ext)`: strips `ext` from the basename unless the
basename equals `ext` itself. -/
def posixBasenameExt (p ext : String) : String :=
  let b := posixBasename p
  if b ≠ ext ∧ strEnds ext b then ⟨b.data.take (b.data.length - ext.data.length)⟩
  else b

/-- `p` occurs as a contiguous run inside `l` (`String.prototype.includes`). -/
def hasInfix (p : List Char) : List Char → Bool
  | [] => p.isPrefixOf []
  | c :: rest => p.isPrefixOf (c :: rest) || hasInfix p rest

/-- `isSafeRelativePath`: rejects empty, NUL-containing, backslash-containing
and absolute paths, and any path whose normalized form is `.`, starts with
`..` or contains a `/../` segment. -/
def isSafeRelativePath (relPath : String) : Bool :=
  let raw := jsTrim relPath
  if raw = "" then false
  else if raw.data.contains '\u0000' then false
  else if raw.data.contains '\\' then false
  else if strStarts "/" raw then false
  else
    let normalized := posixNormalize raw
    if normalized = "." ∨ strStarts ".." normalized ∨
        hasInfix "/../".data normalized.data then false
    else if strStarts "/" normalized then false
    else true

/-! ## Sorting and collaborators -/

/-- Stable insertion of `x` into a list sorted by the comparator. -/
def insertCmp (cmp : String → String → Int) (x : String) : List String → List String
  | [] => [x]
  | y :: ys => if cmp x y ≤ 0 then x :: y :: ys else y :: insertCmp cmp x ys

/-- Stable comparator sort, the behaviour of `Array.prototype.sort(cmp)` for
a consistent comparator (V8's TimSort is stable). -/
def sortCmp (cmp : String → String → Int) (l : List String) : List String :=
  l.foldr (insertCmp cmp) []

/-- Issue severity. -/
inductive Level where
  | error
  | warn
  | info
deriving DecidableEq, Repr

/-- `Issue{level, message}` as accumulated by the validators. -/
structure Issue where
  level : Level
  message : String
deriving DecidableEq, Repr

/-- The platform collaborators the validators call: the ICU collator backing
`localeCompare` and the `Date` parser backing the `generatedAt` check (both
environment-dependent in Node). -/
structure Env where
  loc : String → String → Int
  dateOk : String → Bool

/-- The filesystem snapshot collaborator (`node:fs` plus `readJson` and
`sha256FileHex` of `_lib.mjs`).  `readJson` is `none` when the read or
`JSON.parse` throws; `digest` is the lowercase-hex SHA-256 of the file;
`listFilesRecursive` is the sorted recursive listing produced by
`listFilesRecursive` of `_lib.mjs`. -/
structure FS where
  existsSync : String → Bool
  isFile : String → Bool
  isDirectory : String → Bool
  readJson : String → Option Json
  digest : String → String
  readdir : String → List String
  listFilesRecursive : String → List String

/-! ## ECMA-262 `decodeURIComponent`

`validate-catalog.mjs` calls the platform `decodeURIComponent` on a URL
pathname.  Modelled by the ECMA algorithm: each `%XX` escape becomes a byte,
byte runs must form valid (shortest-form, non-surrogate) UTF-8, and any
malformed escape or byte sequence throws `URIError: URI malformed`. -/

/-- Hex digit value. -/
def hexVal (c : Char) : Option Nat :=
  if '0' ≤ c ∧ c ≤ '9' then some (c.toNat - '0'.toNat)
  else if 'a' ≤ c ∧ c ≤ 'f' then some (c.toNat - 'a'.toNat + 10)
  else if 'A' ≤ c ∧ c ≤ 'F' then some (c.toNat - 'A'.toNat + 10)
  else none

/-- Tokenize a URI component: a `%XX` escape becomes a byte token, any other
character passes through; a `%` not followed by two hex digits fails. -/
def uriTokenize : List Char → Option (List (Sum Char Nat))
  | [] => some []
  | '%' :: h1 :: h2 :: rest =>
    match hexVal h1, hexVal h2, uriTokenize rest with
    | some a, some b, some toks => some (.inr (16 * a + b) :: toks)
    | _, _, _ => none
  | '%' :: _ :: [] => none
  | '%' :: [] => none
  | c :: rest =>
    if c = '%' then none
    else (uriTokenize rest).map (.inl c :: ·)

/-- A UTF-8 continuation byte `80..BF`, contributing its low 6 bits. -/
def contBits (b : Nat) : Option Nat :=
  if 0x80 ≤ b ∧ b ≤ 0xBF then some (b - 0x80) else none

/-- Reassemble tokenized escapes into characters: strict UTF-8 decoding of
byte runs (no overlong forms, no surrogates, max U+10FFFF). -/
def uriAssemble : List (Sum Char Nat) → Option (List Char)
  | [] => some []
  | .inl c :: rest => (uriAssemble rest).map (c :: ·)
  | .inr b :: rest =>
    if b < 0x80 then (uriAssemble rest).map (Char.ofNat b :: ·)
    else
      match rest with
      | .inr b2 :: rest2 =>
        if 0xC2 ≤ b ∧ b ≤ 0xDF then
          match contBits b2 with
          | some x2 => (uriAssemble rest2).map (Char.ofNat ((b - 0xC0) * 64 + x2) :: ·)
          | none => none
        else
          match rest2 with
          | .inr b3 :: rest3 =>
            if 0xE0 ≤ b ∧ b ≤ 0xEF then
              match contBits b2, contBits b3 with
              | some x2, some x3 =>
                let v := (b - 0xE0) * 4096 + x2 * 64 + x3
                if 0x800 ≤ v ∧ (v < 0xD800 ∨ 0xDFFF < v) then
                  (uriAssemble rest3).map (Char.ofNat v :: ·)
                else none
              | _, _ => none
            else
              match rest3 with
              | .inr b4 :: rest4 =>
                if 0xF0 ≤ b ∧ b ≤ 0xF4 then
                  match contBits b2, contBits b3, contBits b4 with
                  | some x2, some x3, some x4 =>
                    let v := (b - 0xF0) * 262144 + x2 * 4096 + x3 * 64 + x4
                    if 0x10000 ≤ v ∧ v ≤ 0x10FFFF then
                      (uriAssemble rest4).map (Char.ofNat v :: ·)
                    else none
                  | _, _, _ => none
                else none
              | _ => none
          | _ => none
      | _ => none

/-- `decodeURIComponent`: `none` models the thrown `URIError`. -/
def jsDecodeURIComponent (s : String) : Option String :=
  match uriTokenize s.data with
  | none => none
  | some toks => (uriAssemble toks).map (⟨·⟩)

/-! ## `new URL(...)` (`safeUrl` of `_lib.mjs`)

Only the `pathname` of the parsed URL is consumed (by the manifest-URL
suffix check).  Modelled for absolute `http`/`https` URLs whose path
characters need no percent-encoding by the WHATWG parser (the repository's
manifest URLs): scheme `://` non-empty host, pathname from the first `/`
after the host up to `?` or `#`, verbatim (`/` when absent); anything
without such a scheme/host shape fails to parse (`safeUrl` returns null). -/

def safeUrl (value : String) : Option String :=
  let lower := jsToLower value
  let after :=
    if strStarts "https://" lower then some (value.data.drop 8)
    else if strStarts "http://" lower then some (value.data.drop 7)
    else none
  match after with
  | none => none
  | some rest =>
    let host := rest.takeWhile (fun c => c ≠ '/' ∧ c ≠ '?' ∧ c ≠ '#')
    if host = [] then none
    else
      let tail := rest.dropWhile (fun c => c ≠ '/' ∧ c ≠ '?' ∧ c ≠ '#')
      match tail with
      | '/' :: _ => some ⟨tail.takeWhile (fun c => c ≠ '?' ∧ c ≠ '#')⟩
      | _ => some "/"

/-! ## `validateCatalog` (`scripts/validate-catalog.mjs` lines 32-167)

The validator is a pure function of the catalog document and the strict-mode
flag; `Except` models an exception escaping it (the JS function has no
try/catch).  Issues appear in source order. -/

/-- The root-level checks of lines 40-53: `schemaVersion` (positive integer)
and `generatedAt` (non-empty string parseable as a timestamp). -/
def catalogRootIssues (env : Env) (catalog : Json) : List Issue :=
  (if ¬ jsPosInt (catalog.get? "schemaVersion") then
    [⟨.error, "catalog.schemaVersion must be a positive integer."⟩]
  else []) ++
  (match catalog.get? "generatedAt" with
   | some (.str s) =>
     if jsTrim s = "" then
       [⟨.error, "catalog.generatedAt must be a non-empty string."⟩]
     else if ¬ env.dateOk s then
       [⟨.error, "catalog.generatedAt is not a parseable timestamp: " ++ s⟩]
     else []
   | _ => [⟨.error, "catalog.generatedAt must be a non-empty string."⟩])

/-- The expected manifest-URL suffix for a pack id and version (line 127
inlines the un-encoded template; the `encodeURIComponent`-built
`expectedSuffix` binding of line 125 is dead and omitted). -/
def expectedManifestSuffix (packId latestVersion : String) : String :=
  "/packs/" ++ packId ++ "/versions/" ++ latestVersion ++ "/manifest.v1.json"

/-- The checks for one catalog entry (lines 62-149 loop body).  `seen` maps
normalized pack ids to the first literal id; the result carries the updated
map.  `.error` models the uncaught `URIError` from `decodeURIComponent`. -/
def entryIssues (strictMode : Bool) (i : Nat) (pack : Json)
    (seen : List (String × String)) :
    Except String (List Issue × List (String × String)) :=
  let pfx := "catalog.packs[" ++ toString i ++ "]"
  if ¬ jsPlainObject pack then
    .ok ([⟨.error, pfx ++ " must be an object."⟩], seen)
  else
    let packId := strField pack "packId"
    let publisher := strField pack "publisher"
    let slug := strField pack "slug"
    let displayName := strField pack "displayName"
    let latestVersion := strField pack "latestVersion"
    let manifestUrl := strField pack "manifestUrl"
    let required :=
      (if packId = "" then [⟨Level.error, pfx ++ ".packId is required."⟩] else []) ++
      (if publisher = "" then [⟨Level.error, pfx ++ ".publisher is required."⟩] else []) ++
      (if slug = "" then [⟨Level.error, pfx ++ ".slug is required."⟩] else []) ++
      (if displayName = "" then [⟨Level.error, pfx ++ ".displayName is required."⟩] else []) ++
      (if latestVersion = "" then [⟨Level.error, pfx ++ ".latestVersion is required."⟩] else []) ++
      (if manifestUrl = "" then [⟨Level.error, pfx ++ ".manifestUrl is required."⟩] else [])
    let charset :=
      (if publisher ≠ "" ∧ ¬ isValidPublisherOrSlug publisher then
        [⟨Level.error, pfx ++ ".publisher contains invalid characters: " ++ publisher⟩]
      else []) ++
      (if slug ≠ "" ∧ ¬ isValidPublisherOrSlug slug then
        [⟨Level.error, pfx ++ ".slug contains invalid characters: " ++ slug⟩]
      else [])
    let idMatch :=
      if packId ≠ "" ∧ publisher ≠ "" ∧ slug ≠ "" ∧ packId ≠ publisher ++ "." ++ slug then
        [⟨Level.error, pfx ++ ".packId must equal publisher.slug (" ++
          (publisher ++ "." ++ slug) ++ ")."⟩]
      else []
    let semverIss :=
      (if latestVersion ≠ "" ∧ ¬ isSemver latestVersion then
        [⟨Level.error, pfx ++ ".latestVersion must be valid semver (got " ++
          latestVersion ++ ")."⟩]
      else []) ++
      (match pack.get? "minAppVersion" with
       | some (.str s) =>
         if jsTrim s ≠ "" ∧ ¬ isSemver (jsTrim s) then
           [⟨Level.error, pfx ++ ".minAppVersion must be valid semver (got " ++ s ++ ")."⟩]
         else []
       | _ => [])
    let tagsIss :=
      match pack.get? "tags" with
      | none => []
      | some (.arr tags) =>
        if tags.all (fun t => match t with | .str s => jsTrim s ≠ "" | _ => false) then []
        else [⟨Level.error, pfx ++ ".tags must be an array of non-empty strings."⟩]
      | some _ => [⟨Level.error, pfx ++ ".tags must be an array of non-empty strings."⟩]
    let descIss :=
      match pack.get? "description" with
      | none => []
      | some (.str _) => []
      | some _ => [⟨Level.error, pfx ++ ".description must be a string when present."⟩]
    let urlIss : Except String (List Issue) :=
      if manifestUrl = "" then .ok []
      else
        match safeUrl manifestUrl with
        | none => .ok [⟨Level.error, pfx ++ ".manifestUrl must be a valid URL."⟩]
        | some rawPathname =>
          match jsDecodeURIComponent rawPathname with
          | none => .error "URI malformed"
          | some pathname =>
            if packId ≠ "" ∧ latestVersion ≠ "" ∧
                ¬ strEnds (expectedManifestSuffix packId latestVersion) pathname then
              .ok [⟨if strictMode then Level.warn else Level.info,
                pfx ++ ".manifestUrl does not end with the expected path for packId/version (got " ++
                pathname ++ ")."⟩]
            else .ok []
    match urlIss with
    | .error e => .error e
    | .ok urlIssues =>
      let normalizedId := normalizePackId packId
      let (dupIss, seen2) :=
        if normalizedId = "" then ([], seen)
        else
          match seen.find? (fun p => p.1 == normalizedId) with
          | some p =>
            ([⟨Level.error, "Duplicate packId (case-insensitive): \"" ++ packId ++
              "\" conflicts with \"" ++ p.2 ++ "\"."⟩], seen)
          | none => ([], seen ++ [(normalizedId, packId)])
      .ok (required ++ charset ++ idMatch ++ semverIss ++ tagsIss ++ descIss ++
        urlIssues ++ dupIss, seen2)

/-- The per-entry loop of `validateCatalog`, threading the `seen` map. -/
def catalogEntriesGo (strictMode : Bool) (i : Nat) (seen : List (String × String)) :
    List Json → Except String (List Issue)
  | [] => .ok []
  | pack :: rest =>
    match entryIssues strictMode i pack seen with
    | .error e => .error e
    | .ok (iss, seen2) =>
      match catalogEntriesGo strictMode (i + 1) seen2 rest with
      | .error e => .error e
      | .ok more => .ok (iss ++ more)

/-- The trimmed pack ids used by the sort-order advisory check (lines
153-155). -/
def catalogPackIds (packs : List Json) : List String :=
  (packs.map (fun p => match p.get? "packId" with
    | some (.str s) => jsTrim s
    | _ => "")).filter (· ≠ "")

/-- `validateCatalog`.  Returns the issue list, or `.error` when the uncaught
`URIError` of line 126 escapes. -/
def validateCatalog (env : Env) (catalog : Json) (strictMode : Bool) :
    Except String (List Issue) :=
  if ¬ jsPlainObject catalog then
    .ok [⟨.error, "Catalog root must be a JSON object."⟩]
  else
    let root := catalogRootIssues env catalog
    match catalog.get? "packs" with
    | some (.arr packs) =>
      match catalogEntriesGo strictMode 0 [] packs with
      | .error e => .error e
      | .ok entryIss =>
        let packIds := catalogPackIds packs
        let sortIss :=
          if packIds = sortCmp env.loc packIds then []
          else [⟨if strictMode then Level.warn else Level.info,
            "Catalog packs are not sorted by packId. (Recommended for clean diffs.)"⟩]
        .ok (root ++ entryIss ++ sortIss)
    | _ => .ok (root ++ [⟨.error, "catalog.packs must be an array."⟩])

/-! ## `validate-pack.mjs` -/

/-- `validateCommandShape` (lines 43-69). -/
def validateCommandShape (command : Json) (pfx : String) : List Issue :=
  if ¬ jsPlainObject command then [⟨.error, pfx ++ " must be an object."⟩]
  else
    (match command.get? "id" with
     | some (.str s) => if ¬ isUuid s then [⟨Level.error, pfx ++ ".id must be a UUID string."⟩] else []
     | _ => [⟨Level.error, pfx ++ ".id must be a UUID string."⟩]) ++
    (match command.get? "label" with
     | some (.str s) => if jsTrim s = "" then [⟨Level.error, pfx ++ ".label must be a non-empty string."⟩] else []
     | _ => [⟨Level.error, pfx ++ ".label must be a non-empty string."⟩]) ++
    (match command.get? "command" with
     | some (.str s) => if jsTrim s = "" then [⟨Level.error, pfx ++ ".command must be a non-empty string."⟩] else []
     | _ => [⟨Level.error, pfx ++ ".command must be a non-empty string."⟩]) ++
    (match command.get? "description" with
     | some (.str _) => []
     | _ => [⟨Level.error, pfx ++ ".description must be a string (may be empty)."⟩]) ++
    (match command.get? "tags" with
     | some (.arr tags) =>
       if tags.all (fun t => match t with | .str _ => true | _ => false) then []
       else [⟨Level.error, pfx ++ ".tags must be an array of strings."⟩]
     | _ => [⟨Level.error, pfx ++ ".tags must be an array of strings."⟩]) ++
    (match command.get? "color" with
     | none => []
     | some (.str s) => if isColorHex s then [] else [⟨Level.error, pfx ++ ".color must be a hex string like #3b82f6."⟩]
     | some _ => [⟨Level.error, pfx ++ ".color must be a hex string like #3b82f6."⟩])

/-- The guard of the duplicate-id bookkeeping (line 92): a truthy
object-typed command whose `id` is a string. -/
def commandIdOf (command : Json) : Option String :=
  if jsObjectLike command then
    match command.get? "id" with
    | some (.str s) => some s
    | _ => none
  else none

/-- The `validateProfile` loop over the command array (lines 85-103):
accumulates issues, the `seen` id set (duplicate detection on the raw id
string) and the set of valid-UUID command ids (added even for duplicates). -/
def profileGo (name : String) (idx : Nat) (seen commandIds : List String) :
    List Json → List Issue × List String
  | [] => ([], commandIds)
  | command :: rest =>
    let pfx := name ++ "[" ++ toString idx ++ "]"
    let shape := validateCommandShape command pfx
    let (dupIss, seen2, ids2) :=
      match commandIdOf command with
      | some id =>
        ((if id ∈ seen then [⟨Level.error, "Duplicate command id in profile: " ++ id⟩] else []),
         (if id ∈ seen then seen else seen ++ [id]),
         (if isUuid id ∧ id ∉ commandIds then commandIds ++ [id] else commandIds))
      | none => ([], seen, commandIds)
    let (restIss, finalIds) := profileGo name (idx + 1) seen2 ids2 rest
    (shape ++ dupIss ++ restIss, finalIds)

/-- `validateProfile` on the parsed profile document. -/
def validateProfileDoc (profilePath : String) (profile : Json) : List Issue × List String :=
  match profile with
  | .arr commands => profileGo (posixBasename profilePath) 0 [] [] commands
  | _ => ([⟨.error, "Profile must be a JSON array: " ++ profilePath⟩], [])

/-- `validateProfile` (lines 71-106): read, parse, validate. -/
def validateProfile (fs : FS) (profilePath : String) : List Issue × List String :=
  match fs.readJson profilePath with
  | none => ([⟨.error, "Profile is not valid JSON: " ++ profilePath⟩], [])
  | some profile => validateProfileDoc profilePath profile

/-- `manifest.assets` when it is an array, else `[]` (line 142). -/
def manifestAssets (m : Json) : List Json :=
  match m.get? "assets" with | some (.arr l) => l | _ => []

/-- `manifest.graphs` when it is an array, else `[]` (line 157). -/
def manifestGraphs (m : Json) : List Json :=
  match m.get? "graphs" with | some (.arr l) => l | _ => []

/-- Shape checks for one `assets[i]` entry (lines 143-155). -/
def assetShape (mp : String) (i : Nat) (asset : Json) : List Issue :=
  let pfx := "manifest.assets[" ++ toString i ++ "]"
  if ¬ jsObjectLike asset then [⟨.error, pfx ++ " must be an object: " ++ mp⟩]
  else
    (if strField asset "file" = "" then [⟨Level.error, pfx ++ ".file is required: " ++ mp⟩] else []) ++
    (match asset.get? "sha256" with
     | some (.str s) => if isHex64 s then [] else [⟨Level.error, pfx ++ ".sha256 must be a 64-hex string: " ++ mp⟩]
     | _ => [⟨Level.error, pfx ++ ".sha256 must be a 64-hex string: " ++ mp⟩])

/-- Shape checks for one `graphs[i]` entry, including the strict-mode
filename advisory (lines 158-184). -/
def graphShape (mp : String) (strictMode : Bool) (i : Nat) (graph : Json) : List Issue :=
  let pfx := "manifest.graphs[" ++ toString i ++ "]"
  if ¬ jsObjectLike graph then [⟨.error, pfx ++ " must be an object: " ++ mp⟩]
  else
    (match graph.get? "commandId" with
     | some (.str s) => if isUuid s then [] else [⟨Level.error, pfx ++ ".commandId must be a UUID string: " ++ mp⟩]
     | _ => [⟨Level.error, pfx ++ ".commandId must be a UUID string: " ++ mp⟩]) ++
    (if strField graph "file" = "" then [⟨Level.error, pfx ++ ".file is required: " ++ mp⟩] else []) ++
    (match graph.get? "sha256" with
     | some (.str s) => if isHex64 s then [] else [⟨Level.error, pfx ++ ".sha256 must be a 64-hex string: " ++ mp⟩]
     | _ => [⟨Level.error, pfx ++ ".sha256 must be a 64-hex string: " ++ mp⟩]) ++
    (match graph.get? "file", graph.get? "commandId" with
     | some (.str f), some (.str cid) =>
       if strictMode ∧ isUuid cid ∧ posixBasenameExt f ".json" ≠ cid then
         [⟨Level.warn, "Graph filename should match commandId (" ++ cid ++ ") but got " ++ f⟩]
       else []
     | _, _ => [])

/-- The structural phase of `validateManifestFile` (lines 122-184). -/
def manifestStructIssues (mp : String) (strictMode : Bool) (m : Json) : List Issue :=
  (if ¬ jsPosInt (m.get? "schemaVersion") then
    [⟨Level.error, "manifest.schemaVersion must be a positive integer: " ++ mp⟩]
  else []) ++
  (if strField m "packId" = "" then [⟨Level.error, "manifest.packId is required: " ++ mp⟩] else []) ++
  (if strField m "version" = "" then [⟨Level.error, "manifest.version is required: " ++ mp⟩] else []) ++
  (match m.get? "profile" with
   | some p =>
     if ¬ jsObjectLike p then [⟨Level.error, "manifest.profile is required: " ++ mp⟩]
     else
       (if strField p "file" = "" then [⟨Level.error, "manifest.profile.file is required: " ++ mp⟩] else []) ++
       (match p.get? "sha256" with
        | some (.str s) => if isHex64 s then [] else [⟨Level.error, "manifest.profile.sha256 must be a 64-hex string: " ++ mp⟩]
        | _ => [⟨Level.error, "manifest.profile.sha256 must be a 64-hex string: " ++ mp⟩])
   | none => [⟨Level.error, "manifest.profile is required: " ++ mp⟩]) ++
  ((manifestAssets m).enum.map (fun p => assetShape mp p.1 p.2)).flatten ++
  ((manifestGraphs m).enum.map (fun p => graphShape mp strictMode p.1 p.2)).flatten

/-- One `addRef` call (lines 193-202): reports unsafe paths and accumulates
the safely-referenced set (insertion-ordered, deduplicated like a JS `Set`). -/
def addRefStep (ctx : String) (st : List Issue × List String) (ref : Option Json) :
    List Issue × List String :=
  match ref with
  | none => st
  | some r =>
    if ¬ jsTruthy r then st
    else
      match r.get? "file" with
      | some (.str f) =>
        let rel := jsTrim f
        if rel = "" then st
        else if ¬ isSafeRelativePath rel then
          (st.1 ++ [⟨.error, "Unsafe referenced path in manifest (" ++ ctx ++ "): " ++ rel⟩], st.2)
        else (st.1, if rel ∈ st.2 then st.2 else st.2 ++ [rel])
      | _ => st

/-- The reference-collection phase (lines 192-206): profile, then assets,
then graphs. -/
def manifestRefs (m : Json) : List Issue × List String :=
  let st0 := addRefStep "profile" ([], []) (m.get? "profile")
  let st1 := (manifestAssets m).foldl (fun st a => addRefStep "asset" st (some a)) st0
  (manifestGraphs m).foldl (fun st g => addRefStep "graph" st (some g)) st1

/-- The existence-and-hash check for one reference (lines 214-229): skip
unless `file` and `sha256` are strings and the trimmed path is non-empty;
report a missing-file error, or a digest mismatch (compared
case-insensitively), for the path joined onto the version directory. -/
def refHashCheck (fs : FS) (versionDir kind : String) (ref : Option Json) : List Issue :=
  match ref with
  | none => []
  | some r =>
    if ¬ jsTruthy r then []
    else
      match r.get? "file", r.get? "sha256" with
      | some (.str f), some (.str sha) =>
        let rel := jsTrim f
        if rel = "" then []
        else
          let abs := pathJoin versionDir rel
          if ¬ (fs.existsSync abs ∧ fs.isFile abs) then
            [⟨.error, "Manifest references missing " ++ kind ++ " file: " ++ abs⟩]
          else if jsToLower (fs.digest abs) ≠ jsToLower sha then
            [⟨.error, "SHA256 mismatch for " ++ kind ++ " file: " ++ rel⟩]
          else []
      | _, _ => []

/-- The full hash-verification loop (lines 209-230): every declared
reference, regardless of the safety outcome of `addRef`. -/
def manifestHashIssues (fs : FS) (versionDir : String) (m : Json) : List Issue :=
  refHashCheck fs versionDir "profile" (m.get? "profile") ++
  ((manifestAssets m).map (fun a => refHashCheck fs versionDir "asset" (some a))).flatten ++
  ((manifestGraphs m).map (fun g => refHashCheck fs versionDir "graph" (some g))).flatten

/-- The profile-load step (lines 233-236): joins the raw declared profile
path onto the version directory and validates the profile when the file
exists.  `path.join` throws a `TypeError` when handed a truthy non-string,
modelled by `.error`. -/
def profileStep (fs : FS) (versionDir : String) (m : Json) :
    Except String (List Issue × List String) :=
  match (m.get? "profile").bind (fun p => p.get? "file") with
  | some v =>
    if jsTruthy v then
      match v with
      | .str f =>
        let profilePath := pathJoin versionDir f
        if fs.existsSync profilePath then .ok (validateProfile fs profilePath)
        else .ok ([], [])
      | _ => .error "path must be a string"
    else .ok ([], [])
  | none => .ok ([], [])

/-- Graph linkage and payload checks for one graph entry (lines 238-260). -/
def graphLinkPayload (fs : FS) (versionDir : String) (commandIds : List String)
    (graph : Json) : List Issue :=
  if ¬ jsObjectLike graph then []
  else
    (match graph.get? "commandId" with
     | some (.str cid) =>
       if isUuid cid ∧ cid ∉ commandIds then
         [⟨Level.error, "Graph commandId not found in profile: " ++ cid⟩]
       else []
     | _ => []) ++
    (match graph.get? "file" with
     | some (.str f) =>
       let abs := pathJoin versionDir f
       if fs.existsSync abs ∧ fs.isFile abs then
         match fs.readJson abs with
         | none => [⟨Level.error, "Graph payload is not valid JSON: " ++ abs⟩]
         | some (.obj _) => []
         | some _ => [⟨Level.error, "Graph payload must be a JSON object: " ++ abs⟩]
       else []
     | _ => [])

/-- The graph loop of lines 238-260. -/
def graphLoop (fs : FS) (versionDir : String) (commandIds : List String)
    (graphs : List Json) : List Issue :=
  (graphs.map (graphLinkPayload fs versionDir commandIds)).flatten

/-- The unreferenced files of the version directory (lines 263-267): the
recursive listing minus the manifest itself, `.DS_Store` artifacts and the
safely-referenced set. -/
def extrasList (fs : FS) (versionDir : String) (referenced : List String) : List String :=
  (((fs.listFilesRecursive versionDir).filter (· ≠ "manifest.v1.json")).filter
    (· ≠ ".DS_Store")).filter (· ∉ referenced)

/-- The unreferenced-files message (lines 268-274). -/
def extrasMsg (extras : List String) : String :=
  "Version folder contains " ++ toString extras.length ++ " unreferenced file(s): " ++
  joinSep ", " (extras.take 5) ++ (if extras.length > 5 then ", ..." else "")

/-- The unreferenced-file advisory (lines 262-274): `warn` under strict mode,
`info` otherwise. -/
def manifestExtras (fs : FS) (versionDir : String) (referenced : List String)
    (strictMode : Bool) : List Issue :=
  let extras := extrasList fs versionDir referenced
  if extras = [] then []
  else [⟨if strictMode then Level.warn else Level.info, extrasMsg extras⟩]

/-- `validateManifestFile` (lines 108-277).  Returns the issue list and the
parsed manifest (`none` on unrecoverable parse/shape failure); `.error`
models an exception escaping the function. -/
def validateManifestFile (fs : FS) (versionDir manifestPath : String)
    (strictMode : Bool) : Except String (List Issue × Option Json) :=
  match fs.readJson manifestPath with
  | none => .ok ([⟨.error, "Manifest is not valid JSON: " ++ manifestPath⟩], none)
  | some m =>
    if ¬ jsPlainObject m then
      .ok ([⟨.error, "Manifest root must be an object: " ++ manifestPath⟩], none)
    else
      match profileStep fs versionDir m with
      | .error e => .error e
      | .ok (profIssues, commandIds) =>
        .ok (manifestStructIssues manifestPath strictMode m ++
          (manifestRefs m).1 ++
          manifestHashIssues fs versionDir m ++
          profIssues ++
          graphLoop fs versionDir commandIds (manifestGraphs m) ++
          manifestExtras fs versionDir (manifestRefs m).2 strictMode, some m)

/-- The options `validatePack` receives from the CLI. -/
structure PackOptions where
  strict : Bool
  allVersions : Bool
  version : Option String

/-- `pack.json.latestVersion`, trimmed (line 313). -/
def packLatestOf (pj : Json) : String :=
  match pj.get? "latestVersion" with
  | some (.str s) => jsTrim s
  | _ => ""

/-- The `pack.json` metadata checks of lines 303-332. -/
def packMetaIssues (packJsonPath packId : String) (pj : Json) (strictMode : Bool) :
    List Issue :=
  (match pj.get? "packId" with
   | some (.str s) =>
     if jsTrim s = "" then [⟨Level.error, "pack.json.packId is required: " ++ packJsonPath⟩]
     else if jsTrim s ≠ packId then
       [⟨Level.error, "pack.json.packId must equal directory packId (" ++ packId ++ ")."⟩]
     else []
   | _ => [⟨Level.error, "pack.json.packId is required: " ++ packJsonPath⟩]) ++
  (if strField pj "publisher" = "" then
    [⟨Level.error, "pack.json.publisher is required: " ++ packJsonPath⟩]
  else []) ++
  (let latestVersion := packLatestOf pj
   if latestVersion = "" then
     [⟨Level.error, "pack.json.latestVersion is required: " ++ packJsonPath⟩]
   else
     (if ¬ isSemver (normalizeSemver latestVersion) then
       [⟨Level.error, "pack.json.latestVersion must be valid semver (got " ++ latestVersion ++ ")."⟩]
     else []) ++
     (if normalizeSemver latestVersion ≠ latestVersion then
       [⟨if strictMode then Level.warn else Level.info,
         "pack.json.latestVersion includes a leading \"v\" (recommended to use strict semver): " ++
         latestVersion⟩]
     else [])) ++
  (if strField pj "license" = "" then
    [⟨Level.error, "pack.json.license is required: " ++ packJsonPath⟩]
  else [])

/-- The sorted version-directory listing of lines 340-342. -/
def packVersionDirs (env : Env) (fs : FS) (versionsDir : String) : List String :=
  sortCmp env.loc ((fs.readdir versionsDir).filter (fun name =>
    fs.existsSync (pathJoin versionsDir name) ∧ fs.isDirectory (pathJoin versionsDir name)))

/-- The per-version loop of lines 358-380. -/
def versionLoop (fs : FS) (strictMode : Bool) (packId versionsDir : String) :
    List String → Except String (List Issue)
  | [] => .ok []
  | version :: rest =>
    let versionDir := pathJoin versionsDir version
    if ¬ (fs.existsSync versionDir ∧ fs.isDirectory versionDir) then
      match versionLoop fs strictMode packId versionsDir rest with
      | .error e => .error e
      | .ok more => .ok (⟨.error, "Missing version directory: " ++ versionDir⟩ :: more)
    else
      let manifestPath := pathJoin versionDir "manifest.v1.json"
      if ¬ (fs.existsSync manifestPath ∧ fs.isFile manifestPath) then
        match versionLoop fs strictMode packId versionsDir rest with
        | .error e => .error e
        | .ok more => .ok (⟨.error, "Missing manifest: " ++ manifestPath⟩ :: more)
      else
        match validateManifestFile fs versionDir manifestPath strictMode with
        | .error e => .error e
        | .ok (mIssues, mOpt) =>
          let cross :=
            match mOpt with
            | none => []
            | some m =>
              (match m.get? "packId" with
               | some (.str s) =>
                 if jsTrim s ≠ packId then
                   [⟨Level.error, "manifest.packId mismatch for " ++ packId ++ "@" ++ version ++
                     " (got " ++ s ++ ")."⟩]
                 else []
               | _ => []) ++
              (match m.get? "version" with
               | some (.str s) =>
                 if jsTrim s ≠ version then
                   [⟨Level.error, "manifest.version mismatch for " ++ packId ++ "@" ++ version ++
                     " (got " ++ s ++ ")."⟩]
                 else []
               | _ => [])
          match versionLoop fs strictMode packId versionsDir rest with
          | .error e => .error e
          | .ok more => .ok (mIssues ++ cross ++ more)

/-- The `{raw, normalized}` pairs with semver-valid normalized form
(lines 383-385). -/
def semverEntries (versionDirs : List String) : List (String × String) :=
  (versionDirs.map (fun v => (v, normalizeSemver v))).filter (fun e => isSemver e.2)

/-- The fold of lines 387-391 computing the greatest on-disk version. -/
def diskMaxFrom (first : String) (rest : List (String × String)) : String :=
  rest.foldl (fun mx e =>
    match compareSemver e.1 mx with
    | some c => if c > 0 then e.1 else mx
    | none => mx) first

/-- The greatest semver-valid version-directory name, per the source fold. -/
def diskMax (versionDirs : List String) : String :=
  match semverEntries versionDirs with
  | [] => ""
  | e0 :: rest => diskMaxFrom e0.1 rest

/-- The advisory message of lines 394-399. -/
def behindMsg (latestVersion mx : String) : String :=
  "pack.json.latestVersion (" ++ latestVersion ++
  ") is behind the greatest version found on disk (" ++ mx ++ ")."

/-- The latest-version advisory block of lines 382-400: guarded by
`semverVersions.length > 0 && latestVersion`, it fires only when
`compareSemver(latestVersion, max)` is non-null and negative. -/
def latestAdvisory (versionDirs : List String) (latestVersion : String)
    (strictMode : Bool) : List Issue :=
  if semverEntries versionDirs ≠ [] ∧ latestVersion ≠ "" then
    let mx := diskMax versionDirs
    match compareSemver latestVersion mx with
    | some c =>
      if c < 0 then
        [⟨if strictMode then Level.warn else Level.info, behindMsg latestVersion mx⟩]
      else []
    | none => []
  else []

/-- The version selection of lines 349-356: an explicit `--version` flag,
else all on-disk versions under `--allVersions`, else the declared latest. -/
def selectedVersions (options : PackOptions) (versionDirs : List String)
    (latestVersion : String) : List String :=
  match options.version with
  | some v =>
    if v = "" then (if options.allVersions then versionDirs else [latestVersion])
    else [v]
  | none => if options.allVersions then versionDirs else [latestVersion]

/-- `validatePack` (lines 279-403). -/
def validatePack (env : Env) (fs : FS) (packId : String) (options : PackOptions) :
    Except String (List Issue) :=
  let packDir := pathJoin "packs" packId
  let packJsonPath := pathJoin packDir "pack.json"
  let strictMode := options.strict
  if ¬ fs.existsSync packJsonPath then
    .ok [⟨.error, "Missing pack.json: " ++ packJsonPath⟩]
  else
    match fs.readJson packJsonPath with
    | none => .ok [⟨.error, "pack.json is not valid JSON: " ++ packJsonPath⟩]
    | some pj =>
      if ¬ jsPlainObject pj then
        .ok [⟨.error, "pack.json root must be an object: " ++ packJsonPath⟩]
      else
        let metaIssues := packMetaIssues packJsonPath packId pj strictMode
        let latestVersion := packLatestOf pj
        let versionsDir := pathJoin packDir "versions"
        if ¬ (fs.existsSync versionsDir ∧ fs.isDirectory versionsDir) then
          .ok (metaIssues ++ [⟨.error, "Missing versions directory: " ++ versionsDir⟩])
        else
          let versionDirs := packVersionDirs env fs versionsDir
          if versionDirs = [] then
            .ok (metaIssues ++ [⟨.error, "No versions found in " ++ versionsDir⟩])
          else
            let selected := selectedVersions options versionDirs latestVersion
            match versionLoop fs strictMode packId versionsDir selected with
            | .error e => .error e
            | .ok loopIssues =>
              .ok (metaIssues ++ loopIssues ++ latestAdvisory versionDirs latestVersion strictMode)

/-! ## Concrete instances used by witnesses and counterexamples -/

/-- A concrete environment: code-unit collation (the `localeCompare` fallback
of ICU-less Node builds) and a timestamp parser accepting every string. -/
def asciiEnv : Env := ⟨cuCmp, fun _ => true⟩

/-- A 64-hex digest literal. -/
def shaA : String := "aaaaaaaaaaaaaaaaaaaaaaaaaaaaaaaaaaaaaaaaaaaaaaaaaaaaaaaaaaaaaaaa"

/-- A different 64-hex digest literal. -/
def shaB : String := "bbbbbbbbbbbbbbbbbbbbbbbbbbbbbbbbbbbbbbbbbbbbbbbbbbbbbbbbbbbbbbbb"

/-- The version directory of the traversal fixture. -/
def vdC1 : String := "packs/p.s/versions/1.0.0"

/-- The manifest path of the traversal fixture. -/
def mpC1 : String := "packs/p.s/versions/1.0.0/manifest.v1.json"

/-- Where `path.join(versionDir, "../../secret.txt")` lands: outside the
version directory. -/
def outsideC1 : String := "packs/p.s/secret.txt"

/-- A manifest whose profile reference traverses out of the version
directory. -/
def manifestC1 : Json := .obj [("schemaVersion", .num 1), ("packId", .str "p.s"),
  ("version", .str "1.0.0"),
  ("profile", .obj [("file", .str "../../secret.txt"), ("sha256", .str shaA)])]

/-- A filesystem snapshot where the traversal target exists (with a digest
different from the declared one) outside the version directory. -/
def fsC1 : FS :=
  { existsSync := fun p => p = mpC1 ∨ p = outsideC1
    isFile := fun p => p = mpC1 ∨ p = outsideC1
    isDirectory := fun _ => false
    readJson := fun p => if p = mpC1 then some manifestC1 else none
    digest := fun p => if p = outsideC1 then shaB else ""
    readdir := fun _ => []
    listFilesRecursive := fun p => if p = vdC1 then ["manifest.v1.json"] else [] }

/-- A catalog whose only entry's `manifestUrl` path carries the malformed
percent-escape `%zz`. -/
def badUrlCatalog : Json := .obj [("schemaVersion", .num 1), ("generatedAt", .str "t"),
  ("packs", .arr [.obj [("packId", .str "a.b"), ("publisher", .str "a"), ("slug", .str "b"),
    ("displayName", .str "X"), ("latestVersion", .str "1.0.0"),
    ("manifestUrl", .str "https://h/%zz")]])]

/-- A catalog with two entries whose pack ids differ only by case. -/
def dupIdCatalog : Json := .obj [("schemaVersion", .num 1), ("generatedAt", .str "t"),
  ("packs", .arr [.obj [("packId", .str "Pub.Slug")], .obj [("packId", .str "pub.slug")]])]

/-- `pack.json` pinning `latestVersion` ahead of every on-disk version. -/
def pjAhead : Json := .obj [("packId", .str "pub.slug"), ("publisher", .str "pub"),
  ("latestVersion", .str "2.0.0"), ("license", .str "MIT")]

/-- A pack tree whose only version directory is `1.0.0` while `pack.json`
declares `latestVersion` `2.0.0`. -/
def fsAhead : FS :=
  { existsSync := fun p => p = "packs/pub.slug/pack.json" ∨ p = "packs/pub.slug/versions" ∨
      p = "packs/pub.slug/versions/1.0.0"
    isFile := fun p => p = "packs/pub.slug/pack.json"
    isDirectory := fun p => p = "packs/pub.slug/versions" ∨ p = "packs/pub.slug/versions/1.0.0"
    readJson := fun p => if p = "packs/pub.slug/pack.json" then some pjAhead else none
    digest := fun _ => ""
    readdir := fun p => if p = "packs/pub.slug/versions" then ["1.0.0"] else []
    listFilesRecursive := fun _ => [] }

/-- `pack.json` pinning `latestVersion` behind the greatest on-disk version. -/
def pjBehind : Json := .obj [("packId", .str "pub.slug"), ("publisher", .str "pub"),
  ("latestVersion", .str "1.0.0"), ("license", .str "MIT")]

/-- A pack tree with version directories `1.0.0` and `1.1.0` while
`pack.json` declares `latestVersion` `1.0.0`. -/
def fsBehind : FS :=
  { existsSync := fun p => p = "packs/pub.slug/pack.json" ∨ p = "packs/pub.slug/versions" ∨
      p = "packs/pub.slug/versions/1.0.0" ∨ p = "packs/pub.slug/versions/1.1.0"
    isFile := fun p => p = "packs/pub.slug/pack.json"
    isDirectory := fun p => p = "packs/pub.slug/versions" ∨ p = "packs/pub.slug/versions/1.0.0" ∨
      p = "packs/pub.slug/versions/1.1.0"
    readJson := fun p => if p = "packs/pub.slug/pack.json" then some pjBehind else none
    digest := fun _ => ""
    readdir := fun p => if p = "packs/pub.slug/versions" then ["1.0.0", "1.1.0"] else []
    listFilesRecursive := fun _ => [] }

/-- A valid (version 4, variant 8) UUID literal. -/
def uuidW : String := "123e4567-e89b-42d3-a456-426614174000"

/-- A well-formed command object carrying `uuidW`. -/
def commandW : Json := .obj [("id", .str uuidW), ("label", .str "L"),
  ("command", .str "run"), ("description", .str ""), ("tags", .arr [])]

/-- A profile array repeating the same command (and so the same UUID id)
twice. -/
def dupProfile : Json := .arr [commandW, commandW]

/-- A graph entry pointing at the duplicated command id. -/
def graphW : Json := .obj [("commandId", .str uuidW), ("file", .str "graphs/g.json"),
  ("sha256", .str shaA)]

/-- A filesystem with no files at all (the graph-loop witness needs none). -/
def fsEmpty : FS :=
  { existsSync := fun _ => false
    isFile := fun _ => false
    isDirectory := fun _ => false
    readJson := fun _ => none
    digest := fun _ => ""
    readdir := fun _ => []
    listFilesRecursive := fun _ => [] }

/-- A manifest whose declared digest for `profile.json` is `shaA`. -/
def manifestW : Json := .obj [("schemaVersion", .num 1), ("packId", .str "p.s"),
  ("version", .str "1.0.0"),
  ("profile", .obj [("file", .str "profile.json"), ("sha256", .str shaA)])]

/-- The version directory of the hash/extras fixtures. -/
def vdW : String := "packs/p.s/versions/1.0.0"

/-- The manifest path of the hash/extras fixtures. -/
def mpW : String := "packs/p.s/versions/1.0.0/manifest.v1.json"

/-- A filesystem where `profile.json` exists with actual digest `shaB`
(differing from the declared `shaA`) and an extra unreferenced file sits in
the version directory. -/
def fsW : FS :=
  { existsSync := fun p => p = mpW ∨ p = "packs/p.s/versions/1.0.0/profile.json"
    isFile := fun p => p = mpW ∨ p = "packs/p.s/versions/1.0.0/profile.json"
    isDirectory := fun _ => false
    readJson := fun p => if p = mpW then some manifestW
      else if p = "packs/p.s/versions/1.0.0/profile.json" then some (.arr [])
      else none
    digest := fun p => if p = "packs/p.s/versions/1.0.0/profile.json" then shaB else ""
    readdir := fun _ => []
    listFilesRecursive := fun p =>
      if p = vdW then ["extra.txt", "manifest.v1.json", "profile.json"] else [] }

/-- A numeric prerelease identifier of 309 nines: about `1e309`, beyond the
float64 maximum of about `1.8e308`, so JS `Number` yields `Infinity`. -/
def hugeId : String := ⟨List.replicate 309 '9'⟩

/-- A valid semver string whose numeric prerelease identifier overflows JS
`Number`. -/
def hugeSemver : String := "1.0.0-" ++ hugeId

/-- A second, distinct overflowing identifier (310 nines). -/
def hugeId2 : String := ⟨List.replicate 310 '9'⟩

/-- A valid semver string, distinct from `hugeSemver`, whose numeric
prerelease identifier also overflows JS `Number`. -/
def hugeSemver2 : String := "1.0.0-" ++ hugeId2

example : isSafeRelativePath "../x" = false := by decide
example : isSafeRelativePath "a/../../b" = false := by decide
example : isSafeRelativePath "a/b.json" = true := by decide
example : isSafeRelativePath "/etc/passwd" = false := by decide
example : posixNormalize "packs/p.s/versions/1.0.0/../../secret.txt" = "packs/p.s/secret.txt" := by decide
example : isUuid "123e4567-e89b-42d3-a456-426614174000" = true := by decide
example : isUuid "123e4567-e89b-02d3-a456-426614174000" = false := by decide
example : jsDecodeURIComponent "/%7a%7A" = some "/zz" := by decide
example : jsDecodeURIComponent "/%zz" = none := by decide
example : jsDecodeURIComponent "/%E0%A4" = none := by decide
example : safeUrl "https://example.com/%zz" = some "/%zz" := by decide
example : safeUrl "not a url" = none := by decide

example : compareSemver "1.0.0-alpha" "1.0.0" = some (-1) := by decide
example : compareSemver "1.0.0-alpha" "1.0.0-alpha.1" = some (-1) := by decide
example : compareSemver "1.0.0-alpha.beta" "1.0.0-alpha.1" = some 1 := by decide
example : isSemver "1.2" = false := by decide
example : isSemver "v1.2.3+build.7" = true := by decide
example : isSemver "01.2.3" = false := by decide

example : jsNumberOfDigits "9007199254740993".data = some 9007199254740992 := by decide
example : jsNumberOfDigits "9007199254740995".data = some 9007199254740996 := by decide
example : jsNumberOfDigits "18014398509481988".data = some 18014398509481988 := by decide
example : jsNumberOfDigits "18014398509481990".data = some 18014398509481992 := by decide
example : jsNumberOfDigits "18014398509481991".data = some 18014398509481992 := by decide

/-! ## Helper lemmas: the comparator chain of `compareSemver` -/

theorem ite_neg_one_iff {p : Prop} [Decidable p] :
    ((if p then (-1 : Int) else 1) = -1) ↔ p := by
  by_cases h : p <;> simp [h]

theorem ite_one_iff {p : Prop} [Decidable p] :
    ((if p then (1 : Int) else -1) = 1) ↔ p := by
  by_cases h : p <;> simp [h]

theorem charsCmp_range (a b : List Char) :
    charsCmp a b = -1 ∨ charsCmp a b = 0 ∨ charsCmp a b = 1 := by
  induction a generalizing b with
  | nil => cases b <;> simp [charsCmp]
  | cons x xs ih =>
    cases b with
    | nil => simp [charsCmp]
    | cons y ys =>
      by_cases h : x = y
      · simpa [charsCmp, h] using ih ys
      · by_cases h2 : x < y <;> simp [charsCmp, h, h2]

theorem charsCmp_self (a : List Char) : charsCmp a a = 0 := by
  induction a with
  | nil => rfl
  | cons x xs ih => simp [charsCmp, ih]

theorem charsCmp_eq_zero : ∀ {a b : List Char}, charsCmp a b = 0 → a = b := by
  intro a
  induction a with
  | nil =>
    intro b h
    cases b with
    | nil => rfl
    | cons y ys => simp [charsCmp] at h
  | cons x xs ih =>
    intro b h
    cases b with
    | nil => simp [charsCmp] at h
    | cons y ys =>
      by_cases hxy : x = y
      · subst hxy
        simp only [charsCmp, if_pos rfl] at h
        rw [ih h]
      · by_cases hlt : x < y <;> simp [charsCmp, hxy, hlt] at h

theorem charsCmp_antisym (a b : List Char) : charsCmp a b = -(charsCmp b a) := by
  induction a generalizing b with
  | nil => cases b <;> simp [charsCmp]
  | cons x xs ih =>
    cases b with
    | nil => simp [charsCmp]
    | cons y ys =>
      by_cases h : x = y
      · subst h; simpa [charsCmp] using ih ys
      · have h2 : ¬ y = x := fun hh => h hh.symm
        rcases lt_or_gt_of_ne h with hlt | hgt
        · simp [charsCmp, h, h2, hlt, asymm hlt]
        · simp [charsCmp, h, h2, hgt, asymm hgt, not_lt_of_gt hgt]

theorem charsCmp_neg_trans :
    ∀ {a b c : List Char}, charsCmp a b = -1 → charsCmp b c = -1 → charsCmp a c = -1 := by
  intro a
  induction a with
  | nil =>
    intro b c h1 h2
    cases b with
    | nil => simp [charsCmp] at h1
    | cons y ys =>
      cases c with
      | nil => simp [charsCmp] at h2
      | cons z zs => simp [charsCmp]
  | cons x xs ih =>
    intro b c h1 h2
    cases b with
    | nil => simp [charsCmp] at h1
    | cons y ys =>
      cases c with
      | nil => simp [charsCmp] at h2
      | cons z zs =>
        by_cases hxy : x = y
        · subst hxy
          simp only [charsCmp, if_pos rfl] at h1
          by_cases hyz : x = z
          · subst hyz
            simp only [charsCmp, if_pos rfl] at h2 ⊢
            exact ih h1 h2
          · simp only [charsCmp, if_neg hyz] at h2 ⊢
            exact h2
        · simp only [charsCmp, if_neg hxy] at h1
          have hlt : x < y := ite_neg_one_iff.1 h1
          by_cases hyz : y = z
          · subst hyz
            simp only [charsCmp, if_neg hxy]
            exact ite_neg_one_iff.2 hlt
          · simp only [charsCmp, if_neg hyz] at h2
            have hlt2 : y < z := ite_neg_one_iff.1 h2
            have hxz : x < z := lt_trans hlt hlt2
            simp only [charsCmp, if_neg (ne_of_lt hxz)]
            exact ite_neg_one_iff.2 hxz

theorem intSign_range (d : Int) : intSign d = -1 ∨ intSign d = 0 ∨ intSign d = 1 := by
  unfold intSign; split_ifs <;> simp

theorem intSign_eq_zero {d : Int} : intSign d = 0 ↔ d = 0 := by
  unfold intSign
  split_ifs with h1 h2
  · simp [h1]
  · constructor
    · intro h; exact absurd h (by decide)
    · intro h; exact absurd h h1
  · constructor
    · intro h; exact absurd h (by decide)
    · intro h; exact absurd h h1

theorem intSign_eq_neg_one {d : Int} : intSign d = -1 ↔ d < 0 := by
  unfold intSign
  split_ifs with h1 h2
  · constructor
    · intro h; exact absurd h (by decide)
    · intro h; omega
  · constructor
    · intro h; exact absurd h (by decide)
    · intro h; omega
  · constructor
    · intro _; omega
    · intro _; rfl

theorem idFinite_num {a : List Char} (hf : idFinite a = true)
    (hn : isNumericId a = true) : ∃ x, jsNumberOfDigits a = some x := by
  simp only [idFinite, hn, Bool.not_true, Bool.false_or] at hf
  exact Option.isSome_iff_exists.1 hf

theorem cmpIdChars_num_num {a b : List Char} (ha : isNumericId a = true)
    (hb : isNumericId b = true) :
    cmpIdChars a b =
      match jsNumberOfDigits a, jsNumberOfDigits b with
      | some x, some y => intSign ((x : Int) - y)
      | some _, none => -1
      | none, some _ => 1
      | none, none => -1 := by
  simp [cmpIdChars, ha, hb]

theorem cmpIdChars_num_str {a b : List Char} (ha : isNumericId a = true)
    (hb : ¬ isNumericId b = true) : cmpIdChars a b = -1 := by
  simp [cmpIdChars, ha, hb]

theorem cmpIdChars_str_num {a b : List Char} (ha : ¬ isNumericId a = true)
    (hb : isNumericId b = true) : cmpIdChars a b = 1 := by
  simp [cmpIdChars, ha, hb]

theorem cmpIdChars_str_str {a b : List Char} (ha : ¬ isNumericId a = true)
    (hb : ¬ isNumericId b = true) : cmpIdChars a b = charsCmp a b := by
  simp [cmpIdChars, ha, hb]

theorem cmpIdChars_range (a b : List Char) :
    cmpIdChars a b = -1 ∨ cmpIdChars a b = 0 ∨ cmpIdChars a b = 1 := by
  by_cases ha : isNumericId a = true <;> by_cases hb : isNumericId b = true
  · rw [cmpIdChars_num_num ha hb]
    cases jsNumberOfDigits a with
    | none =>
      cases jsNumberOfDigits b with
      | none => simp
      | some y => simp
    | some x =>
      cases jsNumberOfDigits b with
      | none => simp
      | some y => exact intSign_range _
  · rw [cmpIdChars_num_str ha hb]; simp
  · rw [cmpIdChars_str_num ha hb]; simp
  · rw [cmpIdChars_str_str ha hb]; exact charsCmp_range a b

theorem cmpIdChars_self {a : List Char} (hf : idFinite a = true) :
    cmpIdChars a a = 0 := by
  by_cases hn : isNumericId a = true
  · obtain ⟨x, hx⟩ := idFinite_num hf hn
    rw [cmpIdChars_num_num hn hn, hx]
    simp [intSign]
  · rw [cmpIdChars_str_str hn hn]
    exact charsCmp_self a

theorem cmpIdChars_antisym {a b : List Char} (hfa : idFinite a = true)
    (hfb : idFinite b = true) : cmpIdChars a b = -(cmpIdChars b a) := by
  by_cases ha : isNumericId a = true <;> by_cases hb : isNumericId b = true
  · obtain ⟨x, hx⟩ := idFinite_num hfa ha
    obtain ⟨y, hy⟩ := idFinite_num hfb hb
    rw [cmpIdChars_num_num ha hb, cmpIdChars_num_num hb ha, hx, hy]
    simp only [intSign]
    split_ifs <;> omega
  · rw [cmpIdChars_num_str ha hb, cmpIdChars_str_num hb ha]
  · rw [cmpIdChars_str_num ha hb, cmpIdChars_num_str hb ha]
    decide
  · rw [cmpIdChars_str_str ha hb, cmpIdChars_str_str hb ha]
    exact charsCmp_antisym a b

theorem cmpIdChars_zero_congr {a b c : List Char} (h : cmpIdChars a b = 0) :
    cmpIdChars b c = cmpIdChars a c := by
  by_cases ha : isNumericId a = true <;> by_cases hb : isNumericId b = true
  · rw [cmpIdChars_num_num ha hb] at h
    cases hA : jsNumberOfDigits a with
    | none =>
      cases hB : jsNumberOfDigits b with
      | none => rw [hA, hB] at h; simp at h
      | some y => rw [hA, hB] at h; simp at h
    | some x =>
      cases hB : jsNumberOfDigits b with
      | none => rw [hA, hB] at h; simp at h
      | some y =>
        rw [hA, hB] at h
        simp [intSign_eq_zero] at h
        have hxy : x = y := by omega
        subst hxy
        by_cases hc : isNumericId c = true
        · rw [cmpIdChars_num_num hb hc, cmpIdChars_num_num ha hc, hA, hB]
        · rw [cmpIdChars_num_str hb hc, cmpIdChars_num_str ha hc]
  · rw [cmpIdChars_num_str ha hb] at h; simp at h
  · rw [cmpIdChars_str_num ha hb] at h; simp at h
  · have hab : a = b := charsCmp_eq_zero (by rw [← cmpIdChars_str_str ha hb]; exact h)
    subst hab
    rfl

theorem cmpIdChars_zero_congr_right {a b c : List Char} (h : cmpIdChars b c = 0) :
    cmpIdChars a b = cmpIdChars a c := by
  by_cases hb : isNumericId b = true <;> by_cases hc : isNumericId c = true
  · rw [cmpIdChars_num_num hb hc] at h
    cases hB : jsNumberOfDigits b with
    | none =>
      cases hC : jsNumberOfDigits c with
      | none => rw [hB, hC] at h; simp at h
      | some z => rw [hB, hC] at h; simp at h
    | some y =>
      cases hC : jsNumberOfDigits c with
      | none => rw [hB, hC] at h; simp at h
      | some z =>
        rw [hB, hC] at h
        simp [intSign_eq_zero] at h
        have hyz : y = z := by omega
        subst hyz
        by_cases ha : isNumericId a = true
        · rw [cmpIdChars_num_num ha hb, cmpIdChars_num_num ha hc, hB, hC]
        · rw [cmpIdChars_str_num ha hb, cmpIdChars_str_num ha hc]
  · rw [cmpIdChars_num_str hb hc] at h; simp at h
  · rw [cmpIdChars_str_num hb hc] at h; simp at h
  · have hbc : b = c := charsCmp_eq_zero (by rw [← cmpIdChars_str_str hb hc]; exact h)
    subst hbc
    rfl

theorem cmpIdChars_neg_trans {a b c : List Char} (h1 : cmpIdChars a b = -1)
    (h2 : cmpIdChars b c = -1) : cmpIdChars a c = -1 := by
  by_cases ha : isNumericId a = true <;> by_cases hb : isNumericId b = true <;>
    by_cases hc : isNumericId c = true
  · rw [cmpIdChars_num_num ha hb] at h1
    rw [cmpIdChars_num_num hb hc] at h2
    rw [cmpIdChars_num_num ha hc]
    cases hA : jsNumberOfDigits a with
    | none =>
      rw [hA] at h1
      cases hB : jsNumberOfDigits b with
      | none =>
        rw [hB] at h2
        cases hC : jsNumberOfDigits c with
        | none => rfl
        | some z => rw [hC] at h2; simp at h2
      | some y => rw [hB] at h1; simp at h1
    | some x =>
      rw [hA] at h1
      cases hB : jsNumberOfDigits b with
      | none =>
        rw [hB] at h2
        cases hC : jsNumberOfDigits c with
        | none => rfl
        | some z => rw [hC] at h2; simp at h2
      | some y =>
        rw [hB] at h1 h2
        cases hC : jsNumberOfDigits c with
        | none => rfl
        | some z =>
          rw [hC] at h2
          simp [intSign_eq_neg_one] at h1 h2 ⊢
          omega
  · exact cmpIdChars_num_str ha hc
  · rw [cmpIdChars_str_num hb hc] at h2; simp at h2
  · exact cmpIdChars_num_str ha hc
  · rw [cmpIdChars_str_num ha hb] at h1; simp at h1
  · rw [cmpIdChars_str_num ha hb] at h1; simp at h1
  · rw [cmpIdChars_str_num hb hc] at h2; simp at h2
  · rw [cmpIdChars_str_str ha hb] at h1
    rw [cmpIdChars_str_str hb hc] at h2
    rw [cmpIdChars_str_str ha hc]
    exact charsCmp_neg_trans h1 h2

theorem compareIdentifiers_self {a : String} (hf : semverIdFinite a = true) :
    compareIdentifiers a a = 0 :=
  cmpIdChars_self hf

theorem compareIdentifiers_antisym {a b : String} (hfa : semverIdFinite a = true)
    (hfb : semverIdFinite b = true) :
    compareIdentifiers a b = -(compareIdentifiers b a) :=
  cmpIdChars_antisym hfa hfb

theorem compareIdentifiers_range (a b : String) :
    compareIdentifiers a b = -1 ∨ compareIdentifiers a b = 0 ∨ compareIdentifiers a b = 1 :=
  cmpIdChars_range a.data b.data

theorem compareIdentifiers_zero_congr {a b c : String} (h : compareIdentifiers a b = 0) :
    compareIdentifiers b c = compareIdentifiers a c :=
  cmpIdChars_zero_congr h

theorem compareIdentifiers_zero_congr_right {a b c : String}
    (h : compareIdentifiers b c = 0) : compareIdentifiers a b = compareIdentifiers a c :=
  cmpIdChars_zero_congr_right h

theorem compareIdentifiers_neg_trans {a b c : String} (h1 : compareIdentifiers a b = -1)
    (h2 : compareIdentifiers b c = -1) : compareIdentifiers a c = -1 :=
  cmpIdChars_neg_trans h1 h2

theorem cmpPre_range (a b : List String) :
    cmpPre a b = -1 ∨ cmpPre a b = 0 ∨ cmpPre a b = 1 := by
  induction a generalizing b with
  | nil => cases b <;> simp [cmpPre]
  | cons x xs ih =>
    cases b with
    | nil => simp [cmpPre]
    | cons y ys =>
      by_cases h : compareIdentifiers x y = 0
      · simpa [cmpPre, h] using ih ys
      · simpa [cmpPre, h] using compareIdentifiers_range x y

theorem cmpPre_self {a : List String} (ha : ∀ s ∈ a, semverIdFinite s = true) :
    cmpPre a a = 0 := by
  induction a with
  | nil => rfl
  | cons x xs ih =>
    have hx : semverIdFinite x = true := ha x (by simp)
    have hxs : ∀ s ∈ xs, semverIdFinite s = true := fun s hs => ha s (by simp [hs])
    simp [cmpPre, compareIdentifiers_self hx, ih hxs]

theorem cmpPre_antisym {a : List String} (ha : ∀ s ∈ a, semverIdFinite s = true) :
    ∀ {b}, (∀ s ∈ b, semverIdFinite s = true) → cmpPre a b = -(cmpPre b a) := by
  induction a with
  | nil =>
    intro b _
    cases b <;> simp [cmpPre]
  | cons x xs ih =>
    intro b hb
    cases b with
    | nil => simp [cmpPre]
    | cons y ys =>
      have hx : semverIdFinite x = true := ha x (by simp)
      have hy : semverIdFinite y = true := hb y (by simp)
      have hxs : ∀ s ∈ xs, semverIdFinite s = true := fun s hs => ha s (by simp [hs])
      have hys : ∀ s ∈ ys, semverIdFinite s = true := fun s hs => hb s (by simp [hs])
      by_cases h : compareIdentifiers x y = 0
      · have h2 : compareIdentifiers y x = 0 := by
          rw [compareIdentifiers_antisym hy hx, h]; rfl
        simpa [cmpPre, h, h2] using ih hxs hys
      · have h2 : compareIdentifiers y x ≠ 0 := by
          rw [compareIdentifiers_antisym hy hx]
          intro hh
          exact h (by omega)
        simp [cmpPre, h, h2]
        rw [compareIdentifiers_antisym hx hy]

theorem cmpPre_zero_congr {a b c : List String} (h : cmpPre a b = 0) :
    cmpPre b c = cmpPre a c := by
  induction a generalizing b c with
  | nil =>
    cases b with
    | nil => rfl
    | cons y ys => simp [cmpPre] at h
  | cons x xs ih =>
    cases b with
    | nil => simp [cmpPre] at h
    | cons y ys =>
      by_cases hxy : compareIdentifiers x y = 0
      · simp only [cmpPre, hxy] at h
        simp at h
        cases c with
        | nil => simp [cmpPre]
        | cons z zs =>
          have hyz : compareIdentifiers y z = compareIdentifiers x z :=
            compareIdentifiers_zero_congr hxy
          by_cases hz : compareIdentifiers x z = 0
          · simp [cmpPre, hyz, hz, ih h]
          · simp [cmpPre, hyz, hz]
      · simp [cmpPre, hxy] at h

theorem cmpPre_zero_congr_right {b c : List String} (h : cmpPre b c = 0) :
    ∀ a, cmpPre a b = cmpPre a c := by
  induction b generalizing c with
  | nil =>
    cases c with
    | nil => intro a; rfl
    | cons z zs => simp [cmpPre] at h
  | cons y ys ih =>
    cases c with
    | nil => simp [cmpPre] at h
    | cons z zs =>
      by_cases hyz : compareIdentifiers y z = 0
      · simp only [cmpPre, hyz] at h
        simp at h
        intro a
        cases a with
        | nil => simp [cmpPre]
        | cons x xs =>
          have hxy : compareIdentifiers x y = compareIdentifiers x z :=
            compareIdentifiers_zero_congr_right hyz
          by_cases hx : compareIdentifiers x y = 0
          · have hx2 : compareIdentifiers x z = 0 := by rw [← hxy]; exact hx
            simp [cmpPre, hx, hx2]
            exact ih h xs
          · have hx2 : compareIdentifiers x z ≠ 0 := by rw [← hxy]; exact hx
            simp [cmpPre, hx, hx2, hxy]
      · simp [cmpPre, hyz] at h

theorem cmpPre_neg_trans {a b c : List String} (h1 : cmpPre a b = -1)
    (h2 : cmpPre b c = -1) : cmpPre a c = -1 := by
  induction a generalizing b c with
  | nil =>
    cases b with
    | nil => simp [cmpPre] at h1
    | cons y ys =>
      cases c with
      | nil => simp [cmpPre] at h2
      | cons z zs => simp [cmpPre]
  | cons x xs ih =>
    cases b with
    | nil => simp [cmpPre] at h1
    | cons y ys =>
      cases c with
      | nil => simp [cmpPre] at h2
      | cons z zs =>
        by_cases hxy : compareIdentifiers x y = 0
        · simp only [cmpPre, hxy] at h1
          simp at h1
          by_cases hyz : compareIdentifiers y z = 0
          · have hxz : compareIdentifiers x z = 0 := by
              rw [← compareIdentifiers_zero_congr hxy]; exact hyz
            simp only [cmpPre, hyz] at h2
            simp at h2
            simp [cmpPre, hxz, ih h1 h2]
          · have hv : compareIdentifiers x z = compareIdentifiers y z :=
              (compareIdentifiers_zero_congr hxy).symm
            simp only [cmpPre, hyz] at h2
            simp [hyz] at h2
            simp [cmpPre, hv, hyz, h2]
        · simp only [cmpPre, hxy] at h1
          simp [hxy] at h1
          by_cases hyz : compareIdentifiers y z = 0
          · have hv : compareIdentifiers x z = compareIdentifiers x y :=
              (compareIdentifiers_zero_congr_right hyz).symm
            have hxz : compareIdentifiers x z = -1 := hv.trans h1
            simp [cmpPre, hxz]
          · simp only [cmpPre, hyz] at h2
            simp [hyz] at h2
            have hxz : compareIdentifiers x z = -1 :=
              compareIdentifiers_neg_trans h1 h2
            simp [cmpPre, hxz]

theorem cmpPreTop_range (a b : List String) :
    cmpPreTop a b = -1 ∨ cmpPreTop a b = 0 ∨ cmpPreTop a b = 1 := by
  cases a <;> cases b <;> simp [cmpPreTop]
  exact cmpPre_range _ _

theorem cmpPreTop_self {a : List String} (ha : ∀ s ∈ a, semverIdFinite s = true) :
    cmpPreTop a a = 0 := by
  cases a with
  | nil => rfl
  | cons x xs => exact cmpPre_self ha

theorem cmpPreTop_antisym {a b : List String} (ha : ∀ s ∈ a, semverIdFinite s = true)
    (hb : ∀ s ∈ b, semverIdFinite s = true) : cmpPreTop a b = -(cmpPreTop b a) := by
  cases a with
  | nil => cases b <;> simp [cmpPreTop]
  | cons x xs =>
    cases b with
    | nil => simp [cmpPreTop]
    | cons y ys => exact cmpPre_antisym ha hb

theorem cmpPreTop_zero_congr {a b c : List String} (h : cmpPreTop a b = 0) :
    cmpPreTop b c = cmpPreTop a c := by
  cases a with
  | nil =>
    cases b with
    | nil => rfl
    | cons y ys => simp [cmpPreTop] at h
  | cons x xs =>
    cases b with
    | nil => simp [cmpPreTop] at h
    | cons y ys =>
      simp only [cmpPreTop] at h
      cases c with
      | nil => simp [cmpPreTop]
      | cons z zs =>
        simp only [cmpPreTop]
        exact cmpPre_zero_congr h

theorem cmpPreTop_zero_congr_right {b c : List String} (h : cmpPreTop b c = 0)
    (a : List String) : cmpPreTop a b = cmpPreTop a c := by
  cases b with
  | nil =>
    cases c with
    | nil => rfl
    | cons z zs => simp [cmpPreTop] at h
  | cons y ys =>
    cases c with
    | nil => simp [cmpPreTop] at h
    | cons z zs =>
      simp only [cmpPreTop] at h
      cases a with
      | nil => simp [cmpPreTop]
      | cons x xs =>
        simp only [cmpPreTop]
        exact cmpPre_zero_congr_right h _

theorem cmpPreTop_neg_trans {a b c : List String} (h1 : cmpPreTop a b = -1)
    (h2 : cmpPreTop b c = -1) : cmpPreTop a c = -1 := by
  cases a with
  | nil => cases b <;> simp [cmpPreTop] at h1
  | cons x xs =>
    cases b with
    | nil =>
      cases c with
      | nil => simp [cmpPreTop] at h2
      | cons z zs => simp [cmpPreTop] at h2
    | cons y ys =>
      simp only [cmpPreTop] at h1
      cases c with
      | nil => simp [cmpPreTop]
      | cons z zs =>
        simp only [cmpPreTop] at h2 ⊢
        exact cmpPre_neg_trans h1 h2

theorem fltCmpI_some_some (x y : Nat) :
    fltCmpI (some x) (some y) = if x ≠ y then (if x > y then (1 : Int) else -1) else 0 := by
  simp [fltCmpI, fltGt]

theorem fltCmpI_range (a b : Option Nat) :
    fltCmpI a b = -1 ∨ fltCmpI a b = 0 ∨ fltCmpI a b = 1 := by
  unfold fltCmpI; split_ifs <;> simp

theorem fltCmpI_self (a : Option Nat) : fltCmpI a a = 0 := by simp [fltCmpI]

theorem fltCmpI_antisym (a b : Option Nat) : fltCmpI a b = -(fltCmpI b a) := by
  rcases a with _ | x <;> rcases b with _ | y <;>
    simp [fltCmpI, fltGt]
  split_ifs <;> omega

theorem fltCmpI_eq_zero {a b : Option Nat} : fltCmpI a b = 0 ↔ a = b := by
  unfold fltCmpI
  split_ifs with h1 h2
  · constructor
    · intro hz; exact absurd hz (by decide)
    · intro hab; exact absurd hab h1
  · constructor
    · intro hz; exact absurd hz (by decide)
    · intro hab; exact absurd hab h1
  · constructor
    · intro _; exact not_not.mp h1
    · intro _; rfl

theorem fltCmpI_zero_congr {a b c : Option Nat} (h : fltCmpI a b = 0) :
    fltCmpI b c = fltCmpI a c := by
  rw [← fltCmpI_eq_zero.1 h]

theorem fltCmpI_zero_congr_right {a b c : Option Nat} (h : fltCmpI b c = 0) :
    fltCmpI a b = fltCmpI a c := by
  rw [fltCmpI_eq_zero.1 h]

theorem fltCmpI_neg_trans {a b c : Option Nat} (h1 : fltCmpI a b = -1)
    (h2 : fltCmpI b c = -1) : fltCmpI a c = -1 := by
  rcases a with _ | x <;> rcases b with _ | y <;> rcases c with _ | z
  · simp [fltCmpI] at h1
  · simp [fltCmpI] at h1
  · simp [fltCmpI, fltGt] at h1
  · simp [fltCmpI, fltGt] at h1
  · simp [fltCmpI] at h2
  · simp [fltCmpI, fltGt] at h2
  · simp [fltCmpI, fltGt]
  · rw [fltCmpI_some_some] at h1 h2 ⊢
    split_ifs at h1 h2 ⊢ <;> omega

theorem lexC_range (f g : α → α → Int)
    (hf : ∀ x y, f x y = -1 ∨ f x y = 0 ∨ f x y = 1)
    (hg : ∀ x y, g x y = -1 ∨ g x y = 0 ∨ g x y = 1) (x y : α) :
    lexC f g x y = -1 ∨ lexC f g x y = 0 ∨ lexC f g x y = 1 := by
  unfold lexC
  by_cases h : f x y = 0
  · simpa [h] using hg x y
  · simpa [h] using hf x y

theorem lexC_self (f g : α → α → Int) (hf : ∀ x, f x x = 0) (x : α)
    (hg : g x x = 0) : lexC f g x x = 0 := by
  simp [lexC, hf x, hg]

theorem lexC_antisym (f g : α → α → Int)
    (hf : ∀ x y, f x y = -(f y x)) (x y : α) (hg : g x y = -(g y x)) :
    lexC f g x y = -(lexC f g y x) := by
  unfold lexC
  by_cases h : f x y = 0
  · have h2 : f y x = 0 := by rw [hf y x, h]; rfl
    simp [h, h2, hg]
  · have h2 : f y x ≠ 0 := by
      rw [hf y x]
      intro hh
      exact h (by omega)
    simp [h, h2, hf x y]

theorem lexC_zero_congr (f g : α → α → Int)
    (hfc : ∀ {x y z : α}, f x y = 0 → f y z = f x z)
    (hgc : ∀ {x y z : α}, g x y = 0 → g y z = g x z)
    {x y z : α} (h : lexC f g x y = 0) : lexC f g y z = lexC f g x z := by
  unfold lexC at h ⊢
  by_cases hf0 : f x y = 0
  · simp [hf0] at h
    rw [hfc hf0, hgc h]
  · simp [hf0] at h

theorem lexC_zero_congr_right (f g : α → α → Int)
    (hfc : ∀ {x y z : α}, f y z = 0 → f x y = f x z)
    (hgc : ∀ {x y z : α}, g y z = 0 → g x y = g x z)
    {x y z : α} (h : lexC f g y z = 0) : lexC f g x y = lexC f g x z := by
  unfold lexC at h ⊢
  by_cases hf0 : f y z = 0
  · simp [hf0] at h
    rw [hfc hf0, hgc h]
  · simp [hf0] at h

theorem lexC_neg_trans (f g : α → α → Int)
    (hfa : ∀ x y, f x y = -(f y x))
    (hfc : ∀ {x y z : α}, f x y = 0 → f y z = f x z)
    (hft : ∀ {x y z : α}, f x y = -1 → f y z = -1 → f x z = -1)
    (hgt : ∀ {x y z : α}, g x y = -1 → g y z = -1 → g x z = -1)
    {x y z : α} (h1 : lexC f g x y = -1) (h2 : lexC f g y z = -1) :
    lexC f g x z = -1 := by
  have hfcr : ∀ {x y z : α}, f y z = 0 → f x y = f x z := by
    intro x y z h
    have h3 := hfc h (z := x)
    calc f x y = -(f y x) := hfa x y
      _ = -(f z x) := by rw [h3]
      _ = f x z := (hfa x z).symm
  unfold lexC at h1 h2 ⊢
  by_cases ha : f x y = 0
  · simp [ha] at h1
    by_cases hb : f y z = 0
    · simp [hb] at h2
      have hz : f x z = 0 := by rw [← hfc ha]; exact hb
      simp [hz]
      exact hgt h1 h2
    · simp [hb] at h2
      have hz : f x z = f y z := (hfc ha).symm
      rw [hz]
      simp [hb, h2]
  · simp [ha] at h1
    by_cases hb : f y z = 0
    · have hz : f x z = f x y := (hfcr hb).symm
      rw [hz]
      simp [ha, h1]
    · simp [hb] at h2
      have hz : f x z = -1 := hft h1 h2
      simp [hz]

theorem cmpParsed_eq (p q : Semver) :
    cmpParsed p q =
      lexC (fun a b => fltCmpI a.major b.major)
        (lexC (fun a b => fltCmpI a.minor b.minor)
          (lexC (fun a b => fltCmpI a.patch b.patch)
            (fun a b => cmpPreTop a.pre b.pre))) p q := by
  simp only [cmpParsed, lexC, fltCmpI]
  by_cases h1 : p.major = q.major <;> by_cases h2 : p.minor = q.minor <;>
    by_cases h3 : p.patch = q.patch <;> simp [h1, h2, h3] <;> split_ifs <;> simp_all

theorem cmpParsed_range (p q : Semver) :
    cmpParsed p q = -1 ∨ cmpParsed p q = 0 ∨ cmpParsed p q = 1 := by
  rw [cmpParsed_eq]
  apply lexC_range
  · exact fun x y => fltCmpI_range _ _
  · intro x y
    apply lexC_range
    · exact fun x y => fltCmpI_range _ _
    · intro x y
      apply lexC_range
      · exact fun x y => fltCmpI_range _ _
      · exact fun x y => cmpPreTop_range _ _

theorem cmpParsed_self {p : Semver} (hp : semverPreFinite p = true) :
    cmpParsed p p = 0 := by
  have hp' : ∀ s ∈ p.pre, semverIdFinite s = true := by
    simpa [semverPreFinite, List.all_eq_true] using hp
  rw [cmpParsed_eq]
  apply lexC_self
  · exact fun x => fltCmpI_self _
  · apply lexC_self
    · exact fun x => fltCmpI_self _
    · apply lexC_self
      · exact fun x => fltCmpI_self _
      · exact cmpPreTop_self hp'

theorem cmpParsed_antisym {p q : Semver} (hp : semverPreFinite p = true)
    (hq : semverPreFinite q = true) : cmpParsed p q = -(cmpParsed q p) := by
  have hp' : ∀ s ∈ p.pre, semverIdFinite s = true := by
    simpa [semverPreFinite, List.all_eq_true] using hp
  have hq' : ∀ s ∈ q.pre, semverIdFinite s = true := by
    simpa [semverPreFinite, List.all_eq_true] using hq
  rw [cmpParsed_eq, cmpParsed_eq]
  apply lexC_antisym
  · exact fun x y => fltCmpI_antisym _ _
  · apply lexC_antisym
    · exact fun x y => fltCmpI_antisym _ _
    · apply lexC_antisym
      · exact fun x y => fltCmpI_antisym _ _
      · exact cmpPreTop_antisym hp' hq'

theorem cmpParsed_zero_congr {p q r : Semver} (h : cmpParsed p q = 0) :
    cmpParsed q r = cmpParsed p r := by
  rw [cmpParsed_eq] at h ⊢
  rw [cmpParsed_eq]
  apply lexC_zero_congr _ _ _ _ h
  · intro x y z hh
    exact fltCmpI_zero_congr hh
  · intro x y z hh
    revert hh
    apply lexC_zero_congr
    · intro x y z hh
      exact fltCmpI_zero_congr hh
    · intro x y z hh
      revert hh
      apply lexC_zero_congr
      · intro x y z hh
        exact fltCmpI_zero_congr hh
      · intro x y z hh
        exact cmpPreTop_zero_congr hh

theorem cmpParsed_zero_congr_right {p q r : Semver} (h : cmpParsed q r = 0) :
    cmpParsed p q = cmpParsed p r := by
  rw [cmpParsed_eq] at h ⊢
  rw [cmpParsed_eq]
  apply lexC_zero_congr_right _ _ _ _ h
  · intro x y z hh
    exact fltCmpI_zero_congr_right hh
  · intro x y z hh
    revert hh
    apply lexC_zero_congr_right
    · intro x y z hh
      exact fltCmpI_zero_congr_right hh
    · intro x y z hh
      revert hh
      apply lexC_zero_congr_right
      · intro x y z hh
        exact fltCmpI_zero_congr_right hh
      · intro x y z hh
        exact cmpPreTop_zero_congr_right hh _

theorem cmpParsed_neg_trans {p q r : Semver} (h1 : cmpParsed p q = -1)
    (h2 : cmpParsed q r = -1) : cmpParsed p r = -1 := by
  rw [cmpParsed_eq] at h1 h2 ⊢
  apply lexC_neg_trans _ _ _ _ _ _ h1 h2
  · exact fun x y => fltCmpI_antisym _ _
  · intro x y z hh
    exact fltCmpI_zero_congr hh
  · intro x y z ha hb
    exact fltCmpI_neg_trans ha hb
  · intro x y z ha hb
    apply lexC_neg_trans _ _ _ _ _ _ ha hb
    · exact fun x y => fltCmpI_antisym _ _
    · intro x y z hh
      exact fltCmpI_zero_congr hh
    · intro x y z ha hb
      exact fltCmpI_neg_trans ha hb
    · intro x y z ha hb
      apply lexC_neg_trans _ _ _ _ _ _ ha hb
      · exact fun x y => fltCmpI_antisym _ _
      · intro x y z hh
        exact fltCmpI_zero_congr hh
      · intro x y z ha hb
        exact fltCmpI_neg_trans ha hb
      · intro x y z ha hb
        exact cmpPreTop_neg_trans ha hb

theorem cmpParsed_le_trans {p q r : Semver} (h1 : cmpParsed p q ≤ 0)
    (h2 : cmpParsed q r ≤ 0) : cmpParsed p r ≤ 0 := by
  rcases cmpParsed_range p q with hpq | hpq | hpq
  · rcases cmpParsed_range q r with hqr | hqr | hqr
    · rw [cmpParsed_neg_trans hpq hqr]; omega
    · rw [← cmpParsed_zero_congr_right hqr, hpq]; omega
    · rw [hqr] at h2; omega
  · rw [← cmpParsed_zero_congr hpq]; exact h2
  · rw [hpq] at h1; omega

set_option maxRecDepth 100000 in
/-- Counterexample refuting claim C4 as stated: `hugeSemver`
(`"1.0.0-" ++ 309 nines`) is a valid semver string, but its numeric
prerelease identifier overflows JS `Number` to `Infinity`; the difference
`Infinity - Infinity` computed by `compareIdentifiers` is `NaN`, whose
`=== 0` and `> 0` tests are both false, so the ternary returns -1 — and
`compareSemver` compares the string strictly below itself, refuting
`compare(a, a) == 0`.  Two distinct overflowing identifiers compare -1 in
both directions, refuting antisymmetry as well. -/
theorem C4_overflow_breaks_reflexivity :
    isSemver hugeSemver = true ∧
    jsNumberOfDigits hugeId.data = none ∧
    compareSemver hugeSemver hugeSemver = some (-1) ∧
    isSemver hugeSemver2 = true ∧
    compareSemver hugeSemver hugeSemver2 = some (-1) ∧
    compareSemver hugeSemver2 hugeSemver = some (-1) :=
  ⟨by decide, by decide, by decide, by decide, by decide, by decide⟩

/-- Claim C4, amended: for valid semver strings `a`, `b`, `c` whose numeric
prerelease identifiers all stay below the float64 overflow threshold
(`semverNumFinite`), `compareSemver` is a strict weak ordering:
`compareSemver a a = 0`, `compareSemver a b` is the negation of
`compareSemver b a`, `compareSemver a b ≤ 0` and `compareSemver b c ≤ 0`
imply `compareSemver a c ≤ 0`, and no comparison of two valid semver
strings returns null.  (Unrestricted, the claim fails:
identifiers whose `Number` image is `Infinity` make `compareIdentifiers`
return -1 via `NaN` even on equal inputs — see
`C4_overflow_breaks_reflexivity`.) -/
theorem C4_compareSemver_strict_weak_order (a b c : String)
    (ha : isSemver a = true) (hb : isSemver b = true) (hc : isSemver c = true)
    (hfa : semverNumFinite a = true) (hfb : semverNumFinite b = true)
    (_hfc : semverNumFinite c = true) :
    compareSemver a a = some 0 ∧
    compareSemver a b ≠ none ∧
    (∀ x, compareSemver a b = some x → compareSemver b a = some (-x)) ∧
    (∀ x y, compareSemver a b = some x → compareSemver b c = some y →
      x ≤ 0 → y ≤ 0 → ∃ z, compareSemver a c = some z ∧ z ≤ 0) := by
  have ha2 : (parseSemver a).isSome = true := ha
  have hb2 : (parseSemver b).isSome = true := hb
  have hc2 : (parseSemver c).isSome = true := hc
  obtain ⟨pa, hpa⟩ := Option.isSome_iff_exists.1 ha2
  obtain ⟨pb, hpb⟩ := Option.isSome_iff_exists.1 hb2
  obtain ⟨pc, hpc⟩ := Option.isSome_iff_exists.1 hc2
  have hfa2 : semverPreFinite pa = true := by
    simpa [semverNumFinite, hpa] using hfa
  have hfb2 : semverPreFinite pb = true := by
    simpa [semverNumFinite, hpb] using hfb
  refine ⟨?_, ?_, ?_, ?_⟩
  · simp [compareSemver, hpa, cmpParsed_self hfa2]
  · simp [compareSemver, hpa, hpb]
  · intro x hx
    simp only [compareSemver, hpa, hpb, Option.some.injEq] at hx
    simp only [compareSemver, hpb, hpa, Option.some.injEq]
    have := cmpParsed_antisym hfa2 hfb2
    omega
  · intro x y hx hy hx0 hy0
    simp only [compareSemver, hpa, hpb, Option.some.injEq] at hx
    simp only [compareSemver, hpb, hpc, Option.some.injEq] at hy
    refine ⟨cmpParsed pa pc, by simp [compareSemver, hpa, hpc], ?_⟩
    exact cmpParsed_le_trans (hx ▸ hx0) (hy ▸ hy0)

/-- Witness for C4: the strict-weak-order properties instantiated at
`"1.0.0-alpha"`, `"1.0.0-alpha.1"`, `"2.0.0"` (all of whose numeric
prerelease identifiers are finite as JS numbers). -/
theorem C4_compareSemver_strict_weak_order_witness :
    isSemver "1.0.0-alpha" = true ∧ isSemver "1.0.0-alpha.1" = true ∧
    isSemver "2.0.0" = true ∧
    semverNumFinite "1.0.0-alpha" = true ∧
    semverNumFinite "1.0.0-alpha.1" = true ∧
    semverNumFinite "2.0.0" = true ∧
    (compareSemver "1.0.0-alpha" "1.0.0-alpha" = some 0 ∧
     compareSemver "1.0.0-alpha" "1.0.0-alpha.1" ≠ none ∧
     (∀ x, compareSemver "1.0.0-alpha" "1.0.0-alpha.1" = some x →
       compareSemver "1.0.0-alpha.1" "1.0.0-alpha" = some (-x)) ∧
     (∀ x y, compareSemver "1.0.0-alpha" "1.0.0-alpha.1" = some x →
       compareSemver "1.0.0-alpha.1" "2.0.0" = some y →
       x ≤ 0 → y ≤ 0 → ∃ z, compareSemver "1.0.0-alpha" "2.0.0" = some z ∧ z ≤ 0)) :=
  ⟨by decide, by decide, by decide, by decide, by decide, by decide,
    C4_compareSemver_strict_weak_order "1.0.0-alpha" "1.0.0-alpha.1" "2.0.0"
      (by decide) (by decide) (by decide) (by decide) (by decide) (by decide)⟩

/-- Claim C5: `compareSemver "1.0.0-alpha" "1.0.0" = -1` (no prerelease
outranks a prerelease at equal major.minor.patch),
`compareSemver "1.0.0-alpha" "1.0.0-alpha.1" = -1` (a proper-prefix
prerelease sequence is lower), and
`compareSemver "1.0.0-alpha.beta" "1.0.0-alpha.1" = 1` (a non-numeric
identifier outranks a numeric one at the same position). -/
theorem C5_compareSemver_prerelease_examples :
    compareSemver "1.0.0-alpha" "1.0.0" = some (-1) ∧
    compareSemver "1.0.0-alpha" "1.0.0-alpha.1" = some (-1) ∧
    compareSemver "1.0.0-alpha.beta" "1.0.0-alpha.1" = some 1 := by
  refine ⟨by decide, by decide, by decide⟩

/-- Claim C1 (refuting evaluation): on a manifest whose profile reference is
the unsafe path `../../secret.txt`, `validateManifestFile` reports the
unsafe-path error and excludes the path from the referenced-files set, but
the existence-and-hash loop still joins the unsafe path onto the version
directory — landing at `packs/p.s/secret.txt`, outside the version
directory — hashes that file (reporting a SHA256 mismatch against its
digest) and the profile-load step reads it as a profile. -/
theorem C1_unsafe_path_still_hashed :
    validateManifestFile fsC1 vdC1 mpC1 false =
      .ok ([⟨.error, "Unsafe referenced path in manifest (profile): ../../secret.txt"⟩,
            ⟨.error, "SHA256 mismatch for profile file: ../../secret.txt"⟩,
            ⟨.error, "Profile is not valid JSON: packs/p.s/secret.txt"⟩],
           some manifestC1) ∧
    isSafeRelativePath "../../secret.txt" = false ∧
    (manifestRefs manifestC1).2 = [] ∧
    pathJoin vdC1 "../../secret.txt" = outsideC1 ∧
    strStarts (vdC1 ++ "/") outsideC1 = false ∧
    fsC1.digest outsideC1 = shaB :=
  ⟨rfl, by decide, rfl, by decide, by decide, rfl⟩

/-- Claim C2 (refuting evaluation): on a catalog whose only entry's
`manifestUrl` URL path contains the malformed percent-escape `%zz`,
`validateCatalog` does not return an issue list for any environment or
strict-mode setting: the `decodeURIComponent` call of the expected-suffix
check throws `URIError: URI malformed`, which escapes the validator instead
of becoming an Issue. -/
theorem C2_validateCatalog_throws_on_malformed_escape (env : Env) (strictMode : Bool) :
    validateCatalog env badUrlCatalog strictMode = .error "URI malformed" := rfl

theorem catalogRootIssues_messages (env : Env) (catalog : Json) :
    ∀ i ∈ catalogRootIssues env catalog,
      i.message = "catalog.schemaVersion must be a positive integer." ∨
      i.message = "catalog.generatedAt must be a non-empty string." ∨
      ∃ g, i.message = "catalog.generatedAt is not a parseable timestamp: " ++ g := by
  intro i hi
  unfold catalogRootIssues at hi
  rcases List.mem_append.1 hi with h | h
  · by_cases hsv : jsPosInt (catalog.get? "schemaVersion") = true
    · simp [hsv] at h
    · simp [hsv] at h
      left
      exact congrArg Issue.message h
  · rcases hg : catalog.get? "generatedAt" with _ | v
    · simp [hg] at h
      right; left
      exact congrArg Issue.message h
    · cases v with
      | str s =>
        simp only [hg] at h
        by_cases he : jsTrim s = ""
        · simp [he] at h
          right; left
          exact congrArg Issue.message h
        · by_cases hd : env.dateOk s = true
          · simp [he, hd] at h
          · simp [he, hd] at h
            right; right
            exact ⟨s, congrArg Issue.message h⟩
      | null =>
        simp [hg] at h
        right; left
        exact congrArg Issue.message h
      | bool b =>
        simp [hg] at h
        right; left
        exact congrArg Issue.message h
      | num q =>
        simp [hg] at h
        right; left
        exact congrArg Issue.message h
      | arr items =>
        simp [hg] at h
        right; left
        exact congrArg Issue.message h
      | obj fields =>
        simp [hg] at h
        right; left
        exact congrArg Issue.message h

/-- Claim C10: when the catalog root is not a JSON object (null, a non-object
value, or an array), `validateCatalog` returns exactly one error-level issue;
when the root is an object but `catalog.packs` is not an array, it returns
the root-level issues (schemaVersion, generatedAt) followed by the
packs-array error and nothing else — no per-entry or sort-order checks run. -/
theorem C10_validateCatalog_root_short_circuit (env : Env) (catalog : Json)
    (strictMode : Bool) :
    (jsPlainObject catalog = false →
      validateCatalog env catalog strictMode =
        .ok [⟨.error, "Catalog root must be a JSON object."⟩]) ∧
    (jsPlainObject catalog = true → isArrOpt (catalog.get? "packs") = false →
      validateCatalog env catalog strictMode =
        .ok (catalogRootIssues env catalog ++
          [⟨.error, "catalog.packs must be an array."⟩]) ∧
      ∀ i ∈ catalogRootIssues env catalog,
        i.message = "catalog.schemaVersion must be a positive integer." ∨
        i.message = "catalog.generatedAt must be a non-empty string." ∨
        ∃ g, i.message = "catalog.generatedAt is not a parseable timestamp: " ++ g) := by
  constructor
  · intro h
    simp [validateCatalog, h]
  · intro hobj hpacks
    refine ⟨?_, catalogRootIssues_messages env catalog⟩
    rcases hv : catalog.get? "packs" with _ | v
    · simp [validateCatalog, hobj, hv]
    · cases v with
      | arr items => simp [isArrOpt, hv] at hpacks
      | null => simp [validateCatalog, hobj, hv]
      | bool b => simp [validateCatalog, hobj, hv]
      | num q => simp [validateCatalog, hobj, hv]
      | str s => simp [validateCatalog, hobj, hv]
      | obj fields => simp [validateCatalog, hobj, hv]

/-- Witness for C10: a string root yields the single root error; an object
root with `packs: null` yields the root issues plus the packs-array error. -/
theorem C10_validateCatalog_root_short_circuit_witness :
    (jsPlainObject (Json.str "x") = false ∧
     validateCatalog asciiEnv (Json.str "x") true =
       .ok [⟨.error, "Catalog root must be a JSON object."⟩]) ∧
    (jsPlainObject (Json.obj [("packs", Json.null)]) = true ∧
     isArrOpt ((Json.obj [("packs", Json.null)]).get? "packs") = false ∧
     (validateCatalog asciiEnv (Json.obj [("packs", Json.null)]) false =
        .ok (catalogRootIssues asciiEnv (Json.obj [("packs", Json.null)]) ++
          [⟨.error, "catalog.packs must be an array."⟩]) ∧
      ∀ i ∈ catalogRootIssues asciiEnv (Json.obj [("packs", Json.null)]),
        i.message = "catalog.schemaVersion must be a positive integer." ∨
        i.message = "catalog.generatedAt must be a non-empty string." ∨
        ∃ g, i.message = "catalog.generatedAt is not a parseable timestamp: " ++ g)) :=
  ⟨⟨by decide,
    (C10_validateCatalog_root_short_circuit asciiEnv (Json.str "x") true).1 (by decide)⟩,
   ⟨by decide, by decide,
    (C10_validateCatalog_root_short_circuit asciiEnv (Json.obj [("packs", Json.null)])
      false).2 (by decide) (by decide)⟩⟩

theorem strData_append (a b : String) : (a ++ b).data = a.data ++ b.data := by
  cases a
  cases b
  rfl

theorem isPrefixOf_append_of_le (p : List Char) :
    ∀ (a b : List Char), p.length ≤ a.length →
      (p.isPrefixOf (a ++ b)) = p.isPrefixOf a := by
  induction p with
  | nil => intro a b h; simp [List.isPrefixOf]
  | cons x xs ih =>
    intro a b h
    cases a with
    | nil => simp at h
    | cons y ys =>
      simp only [List.cons_append, List.isPrefixOf]
      rw [show ys.append b = ys ++ b from rfl, ih ys b (by simpa using h)]

theorem strStarts_append_of_le (p lit g : String) (h : p.data.length ≤ lit.data.length) :
    strStarts p (lit ++ g) = strStarts p lit := by
  unfold strStarts
  rw [strData_append]
  exact isPrefixOf_append_of_le p.data lit.data g.data h

theorem catalogRootIssues_no_dup_message (env : Env) (catalog : Json) :
    (catalogRootIssues env catalog).filter
      (fun i => strStarts "Duplicate packId" i.message) = [] := by
  rw [List.filter_eq_nil_iff]
  intro i hi
  rcases catalogRootIssues_messages env catalog i hi with h | h | ⟨g, h⟩
  · simp [h]
    decide
  · simp [h]
    decide
  · simp only [h]
    rw [strStarts_append_of_le _ _ _ (by decide)]
    decide

/-- Claim C7: for a catalog with exactly two entries whose pack ids are
`"Pub.Slug"` and `"pub.slug"`, `validateCatalog` reports exactly one
duplicate-packId error, and that error names both conflicting literal ids
(for every environment and either strict-mode setting). -/
theorem C7_duplicate_packId_reported_once (env : Env) (strictMode : Bool) :
    ∃ issues, validateCatalog env dupIdCatalog strictMode = .ok issues ∧
      issues.filter (fun i => strStarts "Duplicate packId" i.message) =
        [⟨.error, "Duplicate packId (case-insensitive): \"pub.slug\" conflicts with \"Pub.Slug\"."⟩] := by
  have hdec : validateCatalog env dupIdCatalog strictMode =
      .ok ((catalogRootIssues env dupIdCatalog ++
        [⟨Level.error, "catalog.packs[0].publisher is required."⟩,
         ⟨Level.error, "catalog.packs[0].slug is required."⟩,
         ⟨Level.error, "catalog.packs[0].displayName is required."⟩,
         ⟨Level.error, "catalog.packs[0].latestVersion is required."⟩,
         ⟨Level.error, "catalog.packs[0].manifestUrl is required."⟩,
         ⟨Level.error, "catalog.packs[1].publisher is required."⟩,
         ⟨Level.error, "catalog.packs[1].slug is required."⟩,
         ⟨Level.error, "catalog.packs[1].displayName is required."⟩,
         ⟨Level.error, "catalog.packs[1].latestVersion is required."⟩,
         ⟨Level.error, "catalog.packs[1].manifestUrl is required."⟩,
         ⟨Level.error, "Duplicate packId (case-insensitive): \"pub.slug\" conflicts with \"Pub.Slug\"."⟩]) ++
        (if ["Pub.Slug", "pub.slug"] = sortCmp env.loc ["Pub.Slug", "pub.slug"] then ([] : List Issue)
         else [⟨if strictMode then Level.warn else Level.info,
           "Catalog packs are not sorted by packId. (Recommended for clean diffs.)"⟩])) := rfl
  refine ⟨_, hdec, ?_⟩
  rw [List.filter_append, List.filter_append, catalogRootIssues_no_dup_message]
  have hsort : strStarts "Duplicate packId"
      "Catalog packs are not sorted by packId. (Recommended for clean diffs.)" = false := by
    decide
  by_cases hs : ["Pub.Slug", "pub.slug"] = sortCmp env.loc ["Pub.Slug", "pub.slug"]
  · simp only [if_pos hs, List.filter_nil, List.append_nil, List.nil_append]
    decide
  · simp only [if_neg hs, List.nil_append]
    rw [show List.filter (fun i => strStarts "Duplicate packId" i.message)
      [(⟨if strictMode then Level.warn else Level.info,
        "Catalog packs are not sorted by packId. (Recommended for clean diffs.)"⟩ : Issue)] = [] by
      simp [List.filter, hsort]]
    rw [List.append_nil]
    decide

theorem strStarts_head_eq {p s : String} (hp : strStarts p s = true) (hne : p.data ≠ []) :
    s.data.head? = p.data.head? := by
  unfold strStarts at hp
  cases hpd : p.data with
  | nil => exact absurd hpd hne
  | cons x xs =>
    rw [hpd] at hp
    cases hsd : s.data with
    | nil => rw [hsd] at hp; simp [List.isPrefixOf] at hp
    | cons y ys =>
      rw [hsd] at hp
      simp only [List.isPrefixOf, Bool.and_eq_true, beq_iff_eq] at hp
      simp [hp.1]

theorem refHashCheck_subsingleton (fs : FS) (versionDir kind : String)
    (ref : Option Json) :
    ∀ i ∈ refHashCheck fs versionDir kind ref,
      ∀ j ∈ refHashCheck fs versionDir kind ref, i = j := by
  intro i hi j hj
  unfold refHashCheck at hi hj
  cases ref with
  | none => simp at hi
  | some r =>
    by_cases ht : jsTruthy r = true
    · simp only [ht] at hi hj
      rcases hf2 : r.get? "file" with _ | v
      · rw [hf2] at hi hj
        simp at hi
      · rw [hf2] at hi hj
        cases v with
        | str f =>
          rcases hs2 : r.get? "sha256" with _ | w
          · rw [hs2] at hi hj
            simp at hi
          · rw [hs2] at hi hj
            cases w with
            | str sha =>
              simp only [] at hi hj
              split_ifs at hi hj <;> simp_all
            | null => simp at hi
            | bool b => simp at hi
            | num q => simp at hi
            | arr l => simp at hi
            | obj l => simp at hi
        | null => simp at hi
        | bool b => simp at hi
        | num q => simp at hi
        | arr l => simp at hi
        | obj l => simp at hi
    · simp only [ht] at hi
      simp at hi

/-- Claim C6: for every manifest reference whose file exists as a regular
file under the version directory but whose actual SHA-256 digest differs
(case-insensitively) from the declared one, the hash check of
`validateManifestFile` reports exactly one hash-mismatch error and no
missing-file error; and for any single reference, the missing-file error and
the hash-mismatch error are mutually exclusive. -/
theorem C6_hash_mismatch_and_missing_exclusive (fs : FS) (versionDir kind : String)
    (r : Json) (f sha : String)
    (htr : jsTruthy r = true)
    (hf : r.get? "file" = some (.str f))
    (hsha : r.get? "sha256" = some (.str sha))
    (hne : jsTrim f ≠ "")
    (hex : fs.existsSync (pathJoin versionDir (jsTrim f)) = true)
    (hisf : fs.isFile (pathJoin versionDir (jsTrim f)) = true)
    (hd : jsToLower (fs.digest (pathJoin versionDir (jsTrim f))) ≠ jsToLower sha) :
    refHashCheck fs versionDir kind (some r) =
      [⟨.error, "SHA256 mismatch for " ++ kind ++ " file: " ++ jsTrim f⟩] ∧
    ∀ (ref : Option Json),
      ¬ ((∃ i ∈ refHashCheck fs versionDir kind ref,
            strStarts "Manifest references missing" i.message = true) ∧
         (∃ j ∈ refHashCheck fs versionDir kind ref,
            strStarts "SHA256 mismatch" j.message = true)) := by
  constructor
  · unfold refHashCheck
    simp [htr, hf, hsha, hne, hex, hisf, hd]
  · rintro ref ⟨⟨i, hi, hpi⟩, ⟨j, hj, hpj⟩⟩
    have hij : i = j := refHashCheck_subsingleton fs versionDir kind ref i hi j hj
    have h1 := strStarts_head_eq hpi (by decide)
    have h2 := strStarts_head_eq hpj (by decide)
    rw [hij] at h1
    rw [h1] at h2
    exact absurd h2 (by decide)

/-- Witness for C6: a concrete reference whose file exists with digest
`shaB` while the manifest declares `shaA`. -/
theorem C6_hash_mismatch_and_missing_exclusive_witness :
    refHashCheck fsW vdW "profile"
        (some (.obj [("file", .str "profile.json"), ("sha256", .str shaA)])) =
      [⟨.error, "SHA256 mismatch for " ++ "profile" ++ " file: " ++ jsTrim "profile.json"⟩] ∧
    ∀ (ref : Option Json),
      ¬ ((∃ i ∈ refHashCheck fsW vdW "profile" ref,
            strStarts "Manifest references missing" i.message = true) ∧
         (∃ j ∈ refHashCheck fsW vdW "profile" ref,
            strStarts "SHA256 mismatch" j.message = true)) :=
  C6_hash_mismatch_and_missing_exclusive fsW vdW "profile"
    (.obj [("file", .str "profile.json"), ("sha256", .str shaA)])
    "profile.json" shaA (by decide) rfl rfl (by decide) (by decide) (by decide) (by decide)


/-- Claim C8: whenever `validateManifestFile` returns an issue list together
with a parsed manifest and the version directory contains at least one file
that is neither the manifest nor `.DS_Store` and is not in the
safely-referenced set, the issue list ends with the unreferenced-files issue
at level `warn` when strict mode is on and `info` when it is off — and that
level is not `error` in either mode. -/
theorem C8_unreferenced_files_advisory (fs : FS) (versionDir manifestPath : String)
    (strictMode : Bool) (issues : List Issue) (m : Json)
    (h : validateManifestFile fs versionDir manifestPath strictMode = .ok (issues, some m))
    (hex : extrasList fs versionDir (manifestRefs m).2 ≠ []) :
    (∃ pre, issues = pre ++
      [⟨if strictMode then Level.warn else Level.info,
        extrasMsg (extrasList fs versionDir (manifestRefs m).2)⟩]) ∧
    (if strictMode then Level.warn else Level.info) ≠ Level.error := by
  constructor
  · unfold validateManifestFile at h
    rcases hr : fs.readJson manifestPath with _ | mj
    · rw [hr] at h
      simp at h
    · rw [hr] at h
      by_cases hobj : jsPlainObject mj = true
      · simp only [hobj] at h
        rcases hp : profileStep fs versionDir mj with e | pr
        · rw [hp] at h
          simp at h
        · rw [hp] at h
          obtain ⟨pi, ids⟩ := pr
          injection h with hpair
          injection hpair with hiss hsome
          injection hsome with hm
          subst hm
          refine ⟨manifestStructIssues manifestPath strictMode mj ++ (manifestRefs mj).1 ++
            manifestHashIssues fs versionDir mj ++ pi ++
            graphLoop fs versionDir ids (manifestGraphs mj), ?_⟩
          rw [← hiss]
          simp [manifestExtras, hex, List.append_assoc]
      · simp only [hobj] at h
        simp at h
  · cases strictMode <;> simp

/-- Witness for C8: the fixture manifest with an extra `extra.txt` in the
version directory yields the unreferenced-files issue, last and at `info`
(strict mode off). -/
theorem C8_unreferenced_files_advisory_witness :
    validateManifestFile fsW vdW mpW false =
      .ok ([⟨.error, "SHA256 mismatch for profile file: profile.json"⟩,
            ⟨.info, "Version folder contains 1 unreferenced file(s): extra.txt"⟩],
        some manifestW) ∧
    extrasList fsW vdW (manifestRefs manifestW).2 ≠ [] ∧
    ((∃ pre, [(⟨.error, "SHA256 mismatch for profile file: profile.json"⟩ : Issue),
              ⟨.info, "Version folder contains 1 unreferenced file(s): extra.txt"⟩] = pre ++
      [⟨if false then Level.warn else Level.info,
        extrasMsg (extrasList fsW vdW (manifestRefs manifestW).2)⟩]) ∧
     (if false then Level.warn else Level.info) ≠ Level.error) :=
  ⟨rfl, by decide,
    C8_unreferenced_files_advisory fsW vdW mpW false _ manifestW rfl (by decide)⟩

theorem str_append_cancel_left {p x y : String} (h : p ++ x = p ++ y) : x = y := by
  have hd : (p ++ x).data = (p ++ y).data := congrArg String.data h
  rw [strData_append, strData_append] at hd
  have h2 := List.append_cancel_left hd
  cases x
  cases y
  exact congrArg String.mk h2

theorem profileGo_dup (name : String) (u : String) :
    ∀ (cmds : List Json) (idx : Nat) (seen ids : List String),
    (2 ≤ (cmds.filterMap commandIdOf).count u ∨
     (1 ≤ (cmds.filterMap commandIdOf).count u ∧ u ∈ seen)) →
    (⟨Level.error, "Duplicate command id in profile: " ++ u⟩ : Issue) ∈
      (profileGo name idx seen ids cmds).1 := by
  intro cmds
  induction cmds with
  | nil => intro idx seen ids h; simp [List.filterMap] at h
  | cons c rest ih =>
    intro idx seen ids h
    rcases hc : commandIdOf c with _ | id
    · rw [List.filterMap_cons_none hc] at h
      simp only [profileGo, hc, List.mem_append]
      exact Or.inr (ih (idx + 1) seen ids h)
    · rw [List.filterMap_cons_some hc] at h
      by_cases hid : id = u
      · subst hid
        by_cases hseen : id ∈ seen
        · simp [profileGo, hc, hseen]
        · have hcount : 1 ≤ (rest.filterMap commandIdOf).count id := by
            rcases h with h | ⟨_, hmem⟩
            · rw [List.count_cons_self] at h
              omega
            · exact absurd hmem hseen
          simp only [profileGo, hc, List.mem_append]
          refine Or.inr ?_
          have hrec := ih (idx + 1) (if id ∈ seen then seen else seen ++ [id])
            (if isUuid id = true ∧ id ∉ ids then ids ++ [id] else ids)
            (Or.inr ⟨hcount, by simp [hseen]⟩)
          simpa [hseen] using hrec
      · have hne : u ≠ id := fun hh => hid hh.symm
        rw [List.count_cons_of_ne hne] at h
        simp only [profileGo, hc, List.mem_append]
        refine Or.inr ?_
        rcases h with h | ⟨h1, h2⟩
        · exact ih (idx + 1) _ _ (Or.inl h)
        · refine ih (idx + 1) _ _ (Or.inr ⟨h1, ?_⟩)
          by_cases hs : id ∈ seen <;> simp [hs, h2]

theorem profileGo_ids (name : String) (u : String) (hu : isUuid u = true) :
    ∀ (cmds : List Json) (idx : Nat) (seen ids : List String),
    (u ∈ ids ∨ 1 ≤ (cmds.filterMap commandIdOf).count u) →
    u ∈ (profileGo name idx seen ids cmds).2 := by
  intro cmds
  induction cmds with
  | nil =>
    intro idx seen ids h
    rcases h with h | h
    · simpa [profileGo] using h
    · simp [List.filterMap] at h
  | cons c rest ih =>
    intro idx seen ids h
    rcases hc : commandIdOf c with _ | id
    · rw [List.filterMap_cons_none hc] at h
      simp only [profileGo, hc]
      exact ih (idx + 1) seen ids h
    · rw [List.filterMap_cons_some hc] at h
      simp only [profileGo, hc]
      by_cases hid : id = u
      · subst hid
        refine ih (idx + 1) _ _ (Or.inl ?_)
        by_cases hin : id ∈ ids
        · simp [hin]
        · simp [hin, hu]
      · have hne : u ≠ id := fun hh => hid hh.symm
        rw [List.count_cons_of_ne hne] at h
        rcases h with h | h
        · refine ih (idx + 1) _ _ (Or.inl ?_)
          by_cases hids : isUuid id = true ∧ id ∉ ids <;> simp [hids, h]
        · exact ih (idx + 1) _ _ (Or.inr h)

theorem notfound_msg_inj {cid u : String}
    (h : "Graph commandId not found in profile: " ++ cid =
         "Graph commandId not found in profile: " ++ u) : cid = u :=
  str_append_cancel_left h

theorem payload_json_msg_ne {s u : String} :
    "Graph payload is not valid JSON: " ++ s ≠
      "Graph commandId not found in profile: " ++ u := by
  intro h
  have h1 : strStarts "Graph commandId" ("Graph payload is not valid JSON: " ++ s) = true := by
    rw [h, strStarts_append_of_le _ _ _ (by decide)]
    decide
  rw [strStarts_append_of_le _ _ _ (by decide)] at h1
  exact absurd h1 (by decide)

theorem payload_obj_msg_ne {s u : String} :
    "Graph payload must be a JSON object: " ++ s ≠
      "Graph commandId not found in profile: " ++ u := by
  intro h
  have h1 : strStarts "Graph commandId" ("Graph payload must be a JSON object: " ++ s) = true := by
    rw [h, strStarts_append_of_le _ _ _ (by decide)]
    decide
  rw [strStarts_append_of_le _ _ _ (by decide)] at h1
  exact absurd h1 (by decide)

theorem graphLoop_no_notfound (fs : FS) (versionDir : String) (commandIds : List String)
    (u : String) (hu : u ∈ commandIds) :
    ∀ (graphs : List Json), ∀ i ∈ graphLoop fs versionDir commandIds graphs,
      i.message ≠ "Graph commandId not found in profile: " ++ u := by
  intro graphs
  induction graphs with
  | nil => intro i hi; simp [graphLoop] at hi
  | cons g rest ih =>
    intro i hi
    simp only [graphLoop, List.map_cons, List.flatten_cons, List.mem_append] at hi
    rcases hi with hi | hi
    · unfold graphLinkPayload at hi
      by_cases hobj : jsObjectLike g = true
      · rw [if_neg (by simp [hobj])] at hi
        simp only [List.mem_append] at hi
        rcases hi with hi | hi
        · rcases hcid : g.get? "commandId" with _ | v
          · rw [hcid] at hi; simp at hi
          · rw [hcid] at hi
            cases v with
            | str cid =>
              by_cases hc : isUuid cid = true ∧ cid ∉ commandIds
              · simp only [if_pos hc] at hi
                simp at hi
                rw [hi]
                intro hmsg
                exact hc.2 (notfound_msg_inj hmsg ▸ hu)
              · simp only [if_neg hc] at hi
                simp at hi
            | null => simp at hi
            | bool b => simp at hi
            | num q => simp at hi
            | arr l => simp at hi
            | obj l => simp at hi
        · rcases hf : g.get? "file" with _ | v
          · rw [hf] at hi; simp at hi
          · rw [hf] at hi
            cases v with
            | str f =>
              by_cases hex : fs.existsSync (pathJoin versionDir f) = true ∧
                  fs.isFile (pathJoin versionDir f) = true
              · simp only [if_pos hex] at hi
                rcases hj : fs.readJson (pathJoin versionDir f) with _ | p
                · rw [hj] at hi
                  simp at hi
                  rw [hi]
                  exact payload_json_msg_ne
                · rw [hj] at hi
                  cases p with
                  | obj l => simp at hi
                  | null => simp at hi; rw [hi]; exact payload_obj_msg_ne
                  | bool b => simp at hi; rw [hi]; exact payload_obj_msg_ne
                  | num q => simp at hi; rw [hi]; exact payload_obj_msg_ne
                  | str s => simp at hi; rw [hi]; exact payload_obj_msg_ne
                  | arr l => simp at hi; rw [hi]; exact payload_obj_msg_ne
              · simp only [if_neg hex] at hi
                simp at hi
            | null => simp at hi
            | bool b => simp at hi
            | num q => simp at hi
            | arr l => simp at hi
            | obj l => simp at hi
      · rw [if_pos (by simp [hobj])] at hi
        simp at hi
    · exact ih i hi

/-- Claim C9: if a profile array contains two commands with the same valid
UUID id, `validateProfile` reports a duplicate-command-id error but still
includes that id in the returned command-id set, so the graph loop emits no
`commandId not found in profile` issue for that id. -/
theorem C9_duplicate_id_kept_in_command_set (profilePath : String) (cmds : List Json)
    (u : String) (fs : FS) (versionDir : String) (graphs : List Json)
    (hu : isUuid u = true)
    (hcount : 2 ≤ ((cmds.filterMap commandIdOf).count u)) :
    (⟨Level.error, "Duplicate command id in profile: " ++ u⟩ : Issue) ∈
      (validateProfileDoc profilePath (.arr cmds)).1 ∧
    u ∈ (validateProfileDoc profilePath (.arr cmds)).2 ∧
    ∀ i ∈ graphLoop fs versionDir (validateProfileDoc profilePath (.arr cmds)).2 graphs,
      i.message ≠ "Graph commandId not found in profile: " ++ u := by
  have h1 := profileGo_dup (posixBasename profilePath) u cmds 0 [] [] (Or.inl hcount)
  have h2 := profileGo_ids (posixBasename profilePath) u hu cmds 0 [] [] (Or.inr (by omega))
  exact ⟨h1, h2, graphLoop_no_notfound fs versionDir _ u h2 graphs⟩

/-- Witness for C9: a profile repeating `commandW` twice and a graph entry
pointing at the duplicated id. -/
theorem C9_duplicate_id_kept_in_command_set_witness :
    isUuid uuidW = true ∧
    2 ≤ (([commandW, commandW].filterMap commandIdOf).count uuidW) ∧
    ((⟨Level.error, "Duplicate command id in profile: " ++ uuidW⟩ : Issue) ∈
      (validateProfileDoc "profile.json" (.arr [commandW, commandW])).1 ∧
    uuidW ∈ (validateProfileDoc "profile.json" (.arr [commandW, commandW])).2 ∧
    ∀ i ∈ graphLoop fsEmpty "packs/p.s/versions/1.0.0"
        (validateProfileDoc "profile.json" (.arr [commandW, commandW])).2 [graphW],
      i.message ≠ "Graph commandId not found in profile: " ++ uuidW) :=
  ⟨by decide, by decide,
    C9_duplicate_id_kept_in_command_set "profile.json" [commandW, commandW] uuidW fsEmpty
      "packs/p.s/versions/1.0.0" [graphW] (by decide) (by decide)⟩

theorem latestAdvisory_of_cmp (versionDirs : List String) (latestVersion : String)
    (strictMode : Bool) (c : Int)
    (hse : semverEntries versionDirs ≠ [])
    (hlat : latestVersion ≠ "")
    (hcmp : compareSemver latestVersion (diskMax versionDirs) = some c) :
    latestAdvisory versionDirs latestVersion strictMode =
      if c < 0 then
        [⟨if strictMode then Level.warn else Level.info,
          behindMsg latestVersion (diskMax versionDirs)⟩]
      else [] := by
  unfold latestAdvisory
  rw [if_pos ⟨hse, hlat⟩]
  simp only [hcmp]

/-- Claim C3 (amended): when `validatePack` reaches its latest-version check
(readable object `pack.json`, versions directory present and non-empty) with
at least one semver-valid version-directory name and a non-empty
`latestVersion`, then: if `compareSemver(latestVersion, max-on-disk)` is
negative the issue list ends with the behind-advisory at level `warn` in
strict mode and `info` otherwise; if it is positive (latestVersion greater
than every on-disk version) no advisory is emitted — the output is exactly
the metadata issues followed by the per-version loop issues. -/
theorem C3_latest_version_advisory_only_when_behind (env : Env) (fs : FS) (packId : String) (options : PackOptions)
    (pj : Json) (li : List Issue) (c : Int)
    (h1 : fs.existsSync (pathJoin (pathJoin "packs" packId) "pack.json") = true)
    (h2 : fs.readJson (pathJoin (pathJoin "packs" packId) "pack.json") = some pj)
    (h3 : jsPlainObject pj = true)
    (h4 : fs.existsSync (pathJoin (pathJoin "packs" packId) "versions") = true)
    (h5 : fs.isDirectory (pathJoin (pathJoin "packs" packId) "versions") = true)
    (h6 : packVersionDirs env fs (pathJoin (pathJoin "packs" packId) "versions") ≠ [])
    (h7 : versionLoop fs options.strict packId (pathJoin (pathJoin "packs" packId) "versions")
      (selectedVersions options
        (packVersionDirs env fs (pathJoin (pathJoin "packs" packId) "versions"))
        (packLatestOf pj)) = .ok li)
    (hse : semverEntries (packVersionDirs env fs
      (pathJoin (pathJoin "packs" packId) "versions")) ≠ [])
    (hlat : packLatestOf pj ≠ "")
    (hcmp : compareSemver (packLatestOf pj)
      (diskMax (packVersionDirs env fs (pathJoin (pathJoin "packs" packId) "versions"))) =
        some c) :
    (c < 0 → ∃ pre, validatePack env fs packId options = .ok (pre ++
      [⟨if options.strict then Level.warn else Level.info,
        behindMsg (packLatestOf pj)
          (diskMax (packVersionDirs env fs
            (pathJoin (pathJoin "packs" packId) "versions")))⟩])) ∧
    (0 < c → validatePack env fs packId options =
      .ok (packMetaIssues (pathJoin (pathJoin "packs" packId) "pack.json") packId pj
        options.strict ++ li)) := by
  have hdec : validatePack env fs packId options =
      .ok (packMetaIssues (pathJoin (pathJoin "packs" packId) "pack.json") packId pj
        options.strict ++ li ++
        latestAdvisory (packVersionDirs env fs (pathJoin (pathJoin "packs" packId) "versions"))
          (packLatestOf pj) options.strict) := by
    simp [validatePack, h1, h2, h3, h4, h5, h6, h7]
  constructor
  · intro hc
    rw [hdec, latestAdvisory_of_cmp _ _ _ c hse hlat hcmp, if_pos hc]
    exact ⟨_, rfl⟩
  · intro hc
    rw [hdec, latestAdvisory_of_cmp _ _ _ c hse hlat hcmp, if_neg (by omega)]
    simp

/-- Witness for the amended C3: `pack.json.latestVersion` `1.0.0` behind the
on-disk `1.1.0` yields the behind-advisory as the last issue, at `info`. -/
theorem C3_latest_version_advisory_only_when_behind_witness :
    compareSemver "1.0.0"
      (diskMax (packVersionDirs asciiEnv fsBehind "packs/pub.slug/versions")) = some (-1) ∧
    ∃ pre, validatePack asciiEnv fsBehind "pub.slug" ⟨false, false, none⟩ = .ok (pre ++
      [⟨if (⟨false, false, none⟩ : PackOptions).strict then Level.warn else Level.info,
        behindMsg (packLatestOf pjBehind)
          (diskMax (packVersionDirs asciiEnv fsBehind
            (pathJoin (pathJoin "packs" "pub.slug") "versions")))⟩]) :=
  ⟨by decide,
    (C3_latest_version_advisory_only_when_behind asciiEnv fsBehind "pub.slug"
      ⟨false, false, none⟩ pjBehind
      [⟨.error, "Missing manifest: packs/pub.slug/versions/1.0.0/manifest.v1.json"⟩] (-1)
      (by decide) rfl (by decide) (by decide) (by decide) (by decide) rfl
      (by decide) (by decide) (by decide)).1 (by decide)⟩

/-- Counterexample to C3 as stated: the versions directory holds the
semver-valid directory `1.0.0` while `pack.json.latestVersion` is `2.0.0` —
not the greatest on-disk version-directory name — yet `validatePack` reports
no advisory issue at all (its only issue is the missing-version-directory
error), because the source only fires the advisory when the comparison is
negative. -/
theorem C3_no_advisory_when_latest_ahead :
    validatePack asciiEnv fsAhead "pub.slug" ⟨false, false, none⟩ =
      .ok [⟨.error, "Missing version directory: packs/pub.slug/versions/2.0.0"⟩] ∧
    packVersionDirs asciiEnv fsAhead "packs/pub.slug/versions" = ["1.0.0"] ∧
    isSemver "1.0.0" = true ∧
    packLatestOf pjAhead = "2.0.0" ∧
    compareSemver "2.0.0" (diskMax ["1.0.0"]) = some 1 ∧
    latestAdvisory ["1.0.0"] "2.0.0" false = [] ∧
    latestAdvisory ["1.0.0"] "2.0.0" true = [] :=
  ⟨rfl, by decide, by decide, by decide, by decide, by decide, by decide⟩

theorem charsCmp_eq_js_ternary (a b : List Char) :
    charsCmp a b = if a = b then 0 else if jsStrLt b a then 1 else -1 := by
  induction a generalizing b with
  | nil =>
    cases b with
    | nil => simp [charsCmp]
    | cons y ys => simp [charsCmp, jsStrLt]
  | cons x xs ih =>
    cases b with
    | nil => simp [charsCmp, jsStrLt]
    | cons y ys =>
      by_cases h : x = y
      · subst h
        rw [show charsCmp (x :: xs) (x :: ys) = charsCmp xs ys by simp [charsCmp]]
        rw [ih ys]
        by_cases he : xs = ys
        · simp [he, jsStrLt]
        · have hne : ¬ x :: xs = x :: ys := by simp [he]
          simp only [if_neg he, if_neg hne]
          rw [show jsStrLt (x :: ys) (x :: xs) = jsStrLt ys xs by simp [jsStrLt]]
      · have h2 : ¬ y = x := fun hh => h hh.symm
        have hne : ¬ x :: xs = y :: ys := by simp [h]
        rcases lt_or_gt_of_ne h with hlt | hgt
        · have : ¬ y < x := asymm hlt
          simp [charsCmp, jsStrLt, h, h2, hlt, this, hne]
        · have : ¬ x < y := asymm hgt
          simp [charsCmp, jsStrLt, h, h2, hgt, this, hne]
